import Mathlib

/-!
Verification development for the guardrailed multi-tool research agent
(`research_agent/multi_tool_agent.py`), with supporting models of the
icon generation tool (`research_agent/icon_generation_tool.py`).

The Python source is shallowly embedded:
* request texts are `String`s processed as `List Char` (the embedding of
  Python's text predicates is exact for ASCII inputs; `str.lower`,
  `\w`, `\d`, `\s` are modelled by their ASCII behaviour);
* JSON values (`json.loads` results and the synthesis payload) are the
  inductive `Jv`; Python attribute errors raised by calling dict methods
  on non-dicts are modelled with `Except String`;
* external collaborators (completion service, arXiv client, SymPy, the
  HTTP image generator, and the stdlib `json.loads` parser) are fields of
  an `Env` record, quantified over in the theorems;
* the `run` loop is `stepExec`/`runLoop`/`execRun`; the early `return`
  on an unknown tool is modelled by an `aborted` flag that freezes the
  loop state; persisted payload snapshots and the snippet lists passed to
  the synthesis collaborator are recorded in the loop state so that the
  theorems can speak about them.
-/

namespace Viso

/-! ## Character and string utilities mirroring Python text primitives -/

/-- Python `\s` (ASCII): space, tab, newline, carriage return, vertical tab,
form feed. -/
def pyIsSpace (c : Char) : Bool :=
  c = ' ' || c = '\t' || c = '\n' || c = '\r' || c = Char.ofNat 11 || c = Char.ofNat 12

/-- Python `str.strip()` on ASCII text. -/
def pyStrip (cs : List Char) : List Char :=
  ((cs.dropWhile pyIsSpace).reverse.dropWhile pyIsSpace).reverse

/-- Python `str.lower()` on ASCII text. -/
def lowerStr (cs : List Char) : List Char := cs.map Char.toLower

/-- Python `str.rstrip(bad)`. -/
def rstripChars (bad : List Char) (cs : List Char) : List Char :=
  (cs.reverse.dropWhile (fun c => bad.contains c)).reverse

/-- Does `needle` occur as a contiguous substring of the remaining text?
Models Python's `needle in hay`. -/
def containsSub (needle : List Char) : List Char → Bool
  | [] => needle.isEmpty
  | c :: t => needle.isPrefixOf (c :: t) || containsSub needle t

/-- Match a literal at the front of the input, returning the rest. -/
def matchLit : List Char → List Char → Option (List Char)
  | [], cs => some cs
  | _ :: _, [] => none
  | l :: ls, c :: cs => if c = l then matchLit ls cs else none

/-- Match `\s+` (one or more whitespace characters, greedy). -/
def matchSpaces1 (cs : List Char) : Option (List Char) :=
  let r := cs.dropWhile pyIsSpace
  if r.length < cs.length then some r else none

/-- Python `\w` for ASCII text: letters, digits, underscore. -/
def pyIsWordChar (c : Char) : Bool := c.isAlpha || c.isDigit || c = '_'

/-! ## Classifier: `GuardrailedMultiToolAgent` static heuristics -/

/-- Literal of the code-path wrapper phrase in `_extract_code_path`. -/
def codePathLit : List Char := "Please analyze the code file '".toList

/-- Embedding of `_extract_code_path`: leftmost match of
`Please analyze the code file '([^']+)'`.  At an occurrence of the literal
the capture succeeds iff at least one non-quote character follows and a
closing quote exists after them; otherwise the scan continues. -/
def extractCodePath : List Char → Option (List Char)
  | [] => none
  | c :: t =>
    if codePathLit.isPrefixOf (c :: t) then
      let rest := (c :: t).drop codePathLit.length
      let content := rest.takeWhile (fun d => d ≠ '\'')
      if 0 < content.length && content.length < rest.length then some content
      else extractCodePath t
    else extractCodePath t

/-- Keyword vocabulary of `_looks_like_math`. -/
def mathKeywords : List (List Char) :=
  ["integrate".toList, "differentiate".toList, "solve".toList, "simplify".toList,
   "limit".toList, "series".toList, "matrix".toList, "determinant".toList,
   "eigen".toList, "gradient".toList, "derivative".toList, "converge".toList,
   "proof".toList]

/-- Operator/symbol set of the `_looks_like_math` regular expression. -/
def mathOpChars : List Char := ['+', '-', '/', '*', '^', '=', '∫', 'Σ', '√', '≈', '≤', '≥']

/-- Embedding of `_looks_like_math`. -/
def looksLikeMath (u : String) : Bool :=
  mathKeywords.any (fun k => containsSub k (lowerStr u.toList)) ||
  u.toList.any (fun c => mathOpChars.contains c)

/-- One boilerplate stripping step of `_is_trivial_arithmetic`:
`re.sub(r"^(what\s+is\s+|calculate\s+|compute\s+)", "", t)`, alternatives
tried in order, anchored at the start. -/
def stripBoiler (cs : List Char) : List Char :=
  match matchLit "what".toList cs >>= matchSpaces1 >>=
        matchLit "is".toList >>= matchSpaces1 with
  | some r => r
  | none =>
    match matchLit "calculate".toList cs >>= matchSpaces1 with
    | some r => r
    | none =>
      match matchLit "compute".toList cs >>= matchSpaces1 with
      | some r => r
      | none => cs

/-- Character class `[a-df-hj-oq-rt-vx-z]` of `_is_trivial_arithmetic`
(letters that disqualify trivial arithmetic; e, i, p, s, w are allowed). -/
def disallowedLetter (c : Char) : Bool :=
  ('a' ≤ c && c ≤ 'd') || ('f' ≤ c && c ≤ 'h') || ('j' ≤ c && c ≤ 'o') ||
  ('q' ≤ c && c ≤ 'r') || ('t' ≤ c && c ≤ 'v') || ('x' ≤ c && c ≤ 'z')

/-- Character class `[\d\s()+\-*/^.]` of `_is_trivial_arithmetic`. -/
def trivialChar (c : Char) : Bool :=
  c.isDigit || pyIsSpace c || ['(', ')', '+', '-', '*', '/', '^', '.'].contains c

/-- Embedding of `_is_trivial_arithmetic`. -/
def isTrivialArithmetic (u : String) : Bool :=
  let t0 := pyStrip (lowerStr u.toList)
  let t1 := stripBoiler t0
  let t2 := rstripChars ['?', '.', '!', ' '] t1
  if t2.any disallowedLetter then false
  else (!t2.isEmpty) && t2.all trivialChar && t2.length ≤ 30

/-- Theory-signalling vocabulary of `_needs_arxiv`. -/
def theoryTriggers : List (List Char) :=
  ["proof".toList, "theorem".toList, "convergence".toList, "bound".toList,
   "rate".toList, "lower bound".toList, "upper bound".toList]

/-- Embedding of `_needs_arxiv`. -/
def needsArxiv (u : String) (is_math : Bool) (code_path : Option (List Char))
    (trivial_math : Bool) : Bool :=
  if code_path.isSome then false
  else if trivial_math then false
  else if is_math then
    theoryTriggers.any (fun k => containsSub k (lowerStr u.toList))
  else true

/-- Vowel test `[aeiouAEIOU]` of `_needs_clarification`. -/
def isVowel (c : Char) : Bool :=
  ['a', 'e', 'i', 'o', 'u', 'A', 'E', 'I', 'O', 'U'].contains c

/-- ASCII letter test `[a-zA-Z]`. -/
def isAsciiLetter (c : Char) : Bool :=
  ('a' ≤ c && c ≤ 'z') || ('A' ≤ c && c ≤ 'Z')

/-- Intent keywords searched by `_needs_clarification`. -/
def intentKeywords : List (List Char) :=
  ["math".toList, "code".toList, "explain".toList, "what".toList,
   "why".toList, "how".toList]

/-- The rule chain of `_needs_clarification` on the trimmed text `t`. -/
def needsClarificationCore (t : List Char) : Bool :=
  if t.length < 3 then true
  else if t.all (fun c => !pyIsWordChar c || c = '_') then true
  else if (!t.any isVowel) && 6 < t.length then true
  else if 6 ≤ t.length && t.all isAsciiLetter &&
          !(intentKeywords.any (fun k => containsSub k (lowerStr t))) then true
  else false

/-- Embedding of `_needs_clarification` (`t = text.strip()`). -/
def needsClarification (u : String) : Bool :=
  needsClarificationCore (pyStrip u.toList)

/-- Character class of `_extract_math_expr`'s pattern `[0-9\.\s\+\-\*/\^\(\)]`. -/
def exprChar (c : Char) : Bool :=
  c.isDigit || c = '.' || pyIsSpace c ||
  ['+', '-', '*', '/', '^', '(', ')'].contains c

/-- Helper for `runsOf`: accumulate the current run (reversed) while
splitting the text into maximal runs of characters satisfying `p`. -/
def runsOfGo (p : Char → Bool) : List Char → List Char → List (List Char)
  | [], acc => if acc.isEmpty then [] else [acc.reverse]
  | c :: t, acc =>
    if p c then runsOfGo p t (c :: acc)
    else if acc.isEmpty then runsOfGo p t []
    else acc.reverse :: runsOfGo p t []

/-- Maximal runs of characters satisfying `p`, in order: `re.findall` of the
character-class-plus pattern. -/
def runsOf (p : Char → Bool) (cs : List Char) : List (List Char) :=
  runsOfGo p cs []

/-- Python `max(m, key=len)`: the first run of maximal length. -/
def firstLongest : List (List Char) → Option (List Char)
  | [] => none
  | x :: xs => some (xs.foldl (fun b a => if b.length < a.length then a else b) x)

/-- Embedding of `_extract_math_expr`. -/
def extractMathExpr (u : String) : Option String :=
  match firstLongest (runsOf exprChar u.toList) with
  | none => none
  | some cand =>
    let c := pyStrip cand
    if c.any Char.isDigit then some (String.mk c) else none

/-! ## Classifier: explicit visual intent (`_wants_icons_from_user`)

The two regular expressions use `\b`; since every alternative starts and
ends with a letter, `\b` before a word means the previous character (if
any) is a non-word character, and `\b` after it means the next character
(if any) is a non-word character.  `.` does not match a newline. -/

/-- Keyword triggers of `_wants_icons_from_user`. -/
def iconKeywordTriggers : List (List Char) :=
  ["icon".toList, "icons".toList, "diagram".toList, "diagrams".toList,
   "visual".toList, "visuals".toList, "animation".toList, "illustration".toList,
   "figure".toList, "figures".toList, "meme".toList, "thumbnail".toList,
   "sketch".toList, "draw".toList, "picture".toList, "image".toList,
   "graphic".toList]

/-- Whole word `w` matches at the head of `cs`, given the character that
precedes this position (`none` at the start of the text). -/
def wordHere (w : List Char) (prev : Option Char) (cs : List Char) : Bool :=
  (match prev with | none => true | some p => !pyIsWordChar p) &&
  (match matchLit w cs with
   | none => false
   | some rest =>
     match rest with
     | [] => true
     | c :: _ => !pyIsWordChar c)

/-- After the first word of the pattern: `.*\b(with|using)\b` — consume
any characters except newline, then a whole word from `w2s`. -/
def searchW2NoNL (w2s : List (List Char)) : Option Char → List Char → Bool
  | prev, cs =>
    w2s.any (fun w => wordHere w prev cs) ||
    match cs with
    | [] => false
    | c :: t => if c = '\n' then false else searchW2NoNL w2s (some c) t

/-- Search for `\b(w1)\b.*\b(w2)\b` anywhere in the text. -/
def searchW1ThenW2 (w1s w2s : List (List Char)) : Option Char → List Char → Bool
  | prev, cs =>
    w1s.any (fun w =>
      wordHere w prev cs &&
      searchW2NoNL w2s (w.getLast?) (cs.drop w.length)) ||
    match cs with
    | [] => false
    | c :: t => searchW1ThenW2 w1s w2s (some c) t

/-- Does `\bexplain\b\s+\bwith\b\s+\w+` match at the head of `cs`? -/
def explainWithHere (prev : Option Char) (cs : List Char) : Bool :=
  wordHere "explain".toList prev cs &&
  (match matchSpaces1 (cs.drop 7) with
   | none => false
   | some r2 =>
     match matchLit "with".toList r2 with
     | none => false
     | some r3 =>
       match matchSpaces1 r3 with
       | none => false
       | some r4 =>
         match r4 with
         | [] => false
         | c :: _ => pyIsWordChar c)

/-- Search `\bexplain\b\s+\bwith\b\s+\w+` anywhere in the text. -/
def searchExplainWith : Option Char → List Char → Bool
  | prev, cs =>
    explainWithHere prev cs ||
    match cs with
    | [] => false
    | c :: t => searchExplainWith (some c) t

/-- First-word alternatives of the instructional-phrasing pattern. -/
def instrWords1 : List (List Char) :=
  ["explain".toList, "illustrate".toList, "visualise".toList,
   "visualize".toList, "show".toList, "teach".toList]

/-- Second-word alternatives of the instructional-phrasing pattern. -/
def instrWords2 : List (List Char) := ["with".toList, "using".toList]

/-- Embedding of `_wants_icons_from_user`. -/
def wantsIconsFromUser (u : String) : Bool :=
  let t := lowerStr u.toList
  iconKeywordTriggers.any (fun k => containsSub k t) ||
  searchW1ThenW2 instrWords1 instrWords2 none t ||
  searchExplainWith none t

/-! ## JSON values and Python dict operations

`Jv` stands for the values `json.loads` can produce (numbers restricted to
integers; the payloads in scope never carry floats).  Python expressions
that raise `AttributeError`/`TypeError`/`KeyError` when a dict method or
subscript is applied to a non-dict are embedded in `Except String`. -/

inductive Jv where
  | null
  | bool (b : Bool)
  | num (n : Int)
  | str (s : String)
  | arr (xs : List Jv)
  | obj (fields : List (String × Jv))

/-- First-match lookup in an object's field list (Python dicts have unique
keys, so first-match agrees with dict lookup). -/
def lookupF : List (String × Jv) → String → Option Jv
  | [], _ => none
  | (k, v) :: r, key => if k = key then some v else lookupF r key

/-- Replace the value at a key, or append the binding (Python dict
assignment; insertion order preserved). -/
def setF : List (String × Jv) → String → Jv → List (String × Jv)
  | [], key, v => [(key, v)]
  | (k, w) :: r, key, v => if k = key then (k, v) :: r else (k, w) :: setF r key v

/-- Python truthiness of a JSON value. -/
def Jv.truthy : Jv → Bool
  | .null => false
  | .bool b => b
  | .num n => n ≠ 0
  | .str s => !s.isEmpty
  | .arr xs => !xs.isEmpty
  | .obj fs => !fs.isEmpty

/-- Python `payload.get(key, default)`: `AttributeError` on a non-dict. -/
def pyGetAttr (p : Jv) (k : String) (d : Jv) : Except String Jv :=
  match p with
  | .obj fs => .ok ((lookupF fs k).getD d)
  | _ => .error "AttributeError"

/-- Python `value.lower()`: `AttributeError` on a non-string. -/
def pyLower (v : Jv) : Except String String :=
  match v with
  | .str s => .ok (String.mk (lowerStr s.toList))
  | _ => .error "AttributeError"

/-- Python `payload.setdefault(key, default)` (result dict only;
`AttributeError` on a non-dict). -/
def pySetdefault (p : Jv) (k : String) (d : Jv) : Except String Jv :=
  match p with
  | .obj fs =>
    match lookupF fs k with
    | some _ => .ok (.obj fs)
    | none => .ok (.obj (fs ++ [(k, d)]))
  | _ => .error "AttributeError"

/-- Line 296: `final_payload.setdefault("visual_assets", {}).setdefault("icons", [])`.
The inner `setdefault` acts on the dict stored (or just inserted) under
`visual_assets`; a non-dict value there raises. -/
def setdefaultVAIcons (p : Jv) : Except String Jv :=
  match p with
  | .obj fs =>
    match lookupF fs "visual_assets" with
    | none => .ok (.obj (fs ++ [("visual_assets", .obj [("icons", .arr [])])]))
    | some (.obj vfs) =>
      match lookupF vfs "icons" with
      | some _ => .ok (.obj fs)
      | none => .ok (.obj (setF fs "visual_assets" (.obj (vfs ++ [("icons", .arr [])]))))
    | some _ => .error "AttributeError"
  | _ => .error "AttributeError"

/-- Line 327: `final_payload["visual_assets"]["icons"] = icons_payload`. -/
def setIcons (p : Jv) (icons : List Jv) : Except String Jv :=
  match p with
  | .obj fs =>
    match lookupF fs "visual_assets" with
    | some (.obj vfs) =>
      .ok (.obj (setF fs "visual_assets" (.obj (setF vfs "icons" (.arr icons)))))
    | some _ => .error "TypeError"
    | none => .error "KeyError"
  | _ => .error "TypeError"

/-! ## Post-synthesis decision (`_wants_icons_from_final`) -/

/-- Visual-language cue list of `_wants_icons_from_final`. -/
def visualCues : List (List Char) :=
  ["imagine".toList, "picture".toList, "see".toList, "visual".toList,
   "diagram".toList, "arrow".toList, "number line".toList, "area under".toList,
   "vector".toList, "slide".toList, "stack".toList, "highlight".toList,
   "shade".toList]

/-- Line 107 and the cue scan: `((payload.get("explanation") or
{}).get("content") or "").lower()` followed by the `visual_cues`
membership test.  The attribute accesses can raise on ill-shaped
payloads, hence `Except`. -/
def explCueCheck (p : Jv) : Except String Bool :=
  match pyGetAttr p "explanation" .null with
  | .error e => .error e
  | .ok explRaw =>
    match pyGetAttr (if explRaw.truthy then explRaw else .obj []) "content" .null with
    | .error e => .error e
    | .ok contentRaw =>
      match pyLower (if contentRaw.truthy then contentRaw else .str "") with
      | .error e => .error e
      | .ok low => .ok (visualCues.any (fun k => containsSub k low.toList))

/-- Embedding of `_wants_icons_from_final`: early false on a falsy payload,
true on a non-empty list under `visual_brief`, otherwise the visual-cue
scan of the explanation content. -/
def wantsIconsFromFinal (p : Jv) : Except String Bool :=
  if p.truthy = false then .ok false
  else
    match pyGetAttr p "visual_brief" (.arr []) with
    | .error e => .error e
    | .ok vbRaw =>
      match (if vbRaw.truthy then vbRaw else .arr []) with
      | .arr (_ :: _) => .ok true
      | _ => explCueCheck p

/-! ## Plan builder (`_build_plan`) -/

structure StepPlan where
  idx : Nat
  tool : String
  reason : String
  args : Option Jv

/-- Rationale strings of `_build_plan`, verbatim. -/
def clarReason : String :=
  "If the question doesn't make any sense; ask exactly one concise question."

def codeReason : String := "Code file provided; analyze and answer the question."

def mathReason : String := "Math-like query; verify/compute with SymPy."

def arxivReason : String :=
  "Research-style or conceptual query; fetch literature context from arXiv."

def finalReason : String :=
  "Synthesize 3Blue1Brown-style explanation (100–250 words) + visual_brief."

/-- Conditionally append a step and advance the index counter. -/
def appendStep (acc : List StepPlan × Nat) (cond : Bool) (tool reason : String)
    (args : Jv) : List StepPlan × Nat :=
  if cond then (acc.1 ++ [⟨acc.2, tool, reason, some args⟩], acc.2 + 1) else acc

/-- Steps 0 and 1 of `_build_plan` as a function of the classifier
signals: the conditional steps appended before the synthesis step,
together with the running index counter. -/
def prePlanSig (u : String) (wants_clar : Bool) (code_path : Option (List Char))
    (is_math : Bool) (wants_arxiv : Bool) : List StepPlan × Nat :=
  let a1 := appendStep ([], 0) wants_clar "ask_clarification" clarReason
    (.obj [("prompt", .str u)])
  let a2 := match code_path with
    | some pth =>
      (a1.1 ++ [⟨a1.2, "code_analysis", codeReason,
        some (.obj [("file_path", .str (String.mk pth)), ("question", .str u)])⟩],
       a1.2 + 1)
    | none => a1
  let a3 := appendStep a2 is_math "sympy" mathReason
    (.obj [("expression", .str ((extractMathExpr u).getD u))])
  appendStep a3 wants_arxiv "arxiv_search" arxivReason
    (.obj [("query", .str u), ("max_results", .num 5), ("debug", .bool false)])

/-- `_build_plan` as a function of the classifier signals (the source
computes the signals first, then builds the step list in this fixed
order, always closing with the `final_answer` step). -/
def buildPlanSig (u : String) (wants_clar : Bool) (code_path : Option (List Char))
    (is_math : Bool) (wants_arxiv : Bool) : List StepPlan :=
  (prePlanSig u wants_clar code_path is_math wants_arxiv).1 ++
  [⟨(prePlanSig u wants_clar code_path is_math wants_arxiv).2, "final_answer",
    finalReason, some (.obj [])⟩]

/-- Embedding of `_build_plan` (the printed audit trace is pure logging and
is not modelled). -/
def buildPlan (u : String) : List StepPlan :=
  buildPlanSig u (needsClarification u) (extractCodePath u.toList)
    (looksLikeMath u)
    (needsArxiv u (looksLikeMath u) (extractCodePath u.toList) (isTrivialArithmetic u))

/-- Tool names of the generated plan, in order. -/
def planTools (u : String) : List String := (buildPlan u).map (fun p => p.tool)

/-! ## Runner (`run`)

External collaborators are an environment record; each call either
produces the tool's string output or raises (`Except.error`).  `jsonLoads`
stands for the stdlib `json.loads`.  `iconGen` receives the concepts
payload and generation context as structured values (the source serializes
the concepts object with `json.dumps` immediately before the call; that
string round-trip is elided at this interface). -/

structure Env where
  hasTool : String → Bool
  clarify : Jv → Except String String
  codeAnalysis : Jv → Jv → Except String String
  sympy : Jv → Except String String
  arxiv : Jv → Jv → Jv → Except String String
  finalAnswer : String → String → Except String String
  iconGen : Jv → Jv → Except String String
  jsonLoads : String → Except String Jv

/-- Argument lookup on a step's argument bundle (the builder always stores
the keys each branch reads, so the default is never hit on built plans). -/
def argOf (p : StepPlan) (k : String) : Jv :=
  match p.args with
  | some (.obj fs) => (lookupF fs k).getD .null
  | _ => .null

/-- The labelled error snippet of the `except` block:
`f"[{p.tool} ERROR] {e}"`. -/
def errSnippet (tool e : String) : String := "[" ++ tool ++ " ERROR] " ++ e

/-- One non-synthesis loop iteration: the tagged output snippet appended to
the shared context (`none` for `ask_clarification`, which only logs), or
the raised error. -/
def stepSnippet (env : Env) (p : StepPlan) : Except String (Option String) :=
  if p.tool = "ask_clarification" then
    match env.clarify (argOf p "prompt") with
    | .error e => .error e
    | .ok _ => .ok none
  else if p.tool = "code_analysis" then
    match env.codeAnalysis (argOf p "file_path") (argOf p "question") with
    | .error e => .error e
    | .ok out => .ok (some ("[code_analysis]\n" ++ out))
  else if p.tool = "sympy" then
    match env.sympy (argOf p "expression") with
    | .error e => .error e
    | .ok out => .ok (some ("[sympy]\n" ++ out))
  else if p.tool = "arxiv_search" then
    match env.arxiv (argOf p "query") (argOf p "max_results") (argOf p "debug") with
    | .error e => .error e
    | .ok out => .ok (some ("[arxiv]\n" ++ out))
  else .ok none

/-- The locally constructed payload when `json.loads(result_str)` fails. -/
def localFallback (u raw : String) : Jv :=
  .obj [("question", .str u),
        ("explanation", .obj [("content", .str raw)]),
        ("visual_brief", .arr []),
        ("visual_assets", .obj [("icons", .arr [])])]

/-- The end-of-`run` fallback payload (`final_payload or {...}`). -/
def fallbackPayload (u : String) : Jv :=
  .obj [("question", .str u),
        ("explanation", .obj [("content", .str "No explanation produced.")]),
        ("visual_brief", .arr []),
        ("visual_assets", .obj [("icons", .arr [])])]

/-- Lines 323-324: one returned icon dict mapped to a `{concept, path}`
entry. -/
def mkIconEntry (fs : List (String × Jv)) : Jv :=
  .obj [("concept", (lookupF fs "concept").getD (.str "")),
        ("path", (lookupF fs "filename").getD (.str ""))]

/-- The `for icon in data.get("generated_icons", [])` loop: dict elements
are mapped; the first non-dict element raises inside the inner `try`, so
the entries appended before it are kept. -/
def mapIconsList : List Jv → List Jv
  | [] => []
  | .obj fs :: rest => mkIconEntry fs :: mapIconsList rest
  | _ :: _ => []

/-- Lines 320-326: parse the visualizer's JSON output into `icons_payload`;
any exception inside the inner `try` (bad JSON, non-dict data, non-list or
ill-formed `generated_icons`) leaves the entries collected so far. -/
def parseIconsPayload (env : Env) (icons_json : String) : List Jv :=
  match env.jsonLoads icons_json with
  | .error _ => []
  | .ok (.obj dfs) =>
    match (lookupF dfs "generated_icons").getD (.arr []) with
    | .arr items => mapIconsList items
    | _ => []
  | .ok _ => []

/-- Line 314: the concepts argument for the visualizer — the serialized
`visual_brief` object when the brief (line 313: `vb = ... or []`) is
truthy, otherwise the explanation content. -/
def conceptsArgOf (fp2 : Jv) (vbRaw : Jv) : Except String Jv :=
  if (if vbRaw.truthy then vbRaw else .arr []).truthy then
    Except.ok (Jv.obj [("visual_brief", if vbRaw.truthy then vbRaw else .arr [])])
  else
    match pyGetAttr fp2 "explanation" (.obj []) with
    | .error e => .error e
    | .ok ex => pyGetAttr ex "content" (.str "")

/-- Lines 312-329 given that icon generation was decided on: compute the
concepts payload and context, call the visualizer, and replace
`visual_assets.icons`. -/
def iconSubBranch (env : Env) (u : String) (fp2 : Jv) : Except String Jv :=
  match pyGetAttr fp2 "visual_brief" (.arr []) with
  | .error e => .error e
  | .ok vbRaw =>
    match conceptsArgOf fp2 vbRaw with
    | .error e => .error e
    | .ok concepts =>
      match pyGetAttr fp2 "explanation" (.obj []) with
      | .error e => .error e
      | .ok ex2 =>
        match pyGetAttr ex2 "content" (.str "") with
        | .error e => .error e
        | .ok contentV =>
          match env.iconGen concepts (if contentV.truthy then contentV else .str u) with
          | .error e => .error e
          | .ok icons_json => setIcons fp2 (parseIconsPayload env icons_json)

/-- Outcome of the `final_answer` branch: the value of the `final_payload`
variable when the branch ends (normally or by a caught exception), the
payload snapshots persisted to `output/latest_explanation.json`, and the
caught exception, if any. -/
structure SynthOutcome where
  payload : Option Jv
  persists : List Jv
  err : Option String

/-- Line 283: `"\n\n".join(combined_result_snippets).strip()`. -/
def contextBlob (snips : List String) : String :=
  (String.intercalate "\n\n" snips).trim

/-- Lines 286-294: `json.loads(result_str)` with the local fallback
payload on parse failure. -/
def parsePayload (env : Env) (u result_str : String) : Jv :=
  match env.jsonLoads result_str with
  | .ok j => j
  | .error _ => localFallback u result_str

/-- Lines 281-331: the `final_answer` branch of the loop body. -/
def synthBranch (env : Env) (u : String) (snips : List String)
    (pay0 : Option Jv) : SynthOutcome :=
  match env.finalAnswer u (contextBlob snips) with
  | .error e => ⟨pay0, [], some e⟩
  | .ok result_str =>
    match pySetdefault (parsePayload env u result_str) "visual_brief" (.arr []) with
    | .error e => ⟨some (parsePayload env u result_str), [], some e⟩
    | .ok fp1 =>
      match setdefaultVAIcons fp1 with
      | .error e => ⟨some fp1, [], some e⟩
      | .ok fp2 =>
        match wantsIconsFromFinal fp2 with
        | .error e => ⟨some fp2, [fp2], some e⟩
        | .ok finalWants =>
          match (wantsIconsFromUser u || finalWants) && env.hasTool "icon_generation" with
          | true =>
            match iconSubBranch env u fp2 with
            | .error e => ⟨some fp2, [fp2], some e⟩
            | .ok fp3 => ⟨some fp3, [fp2, fp3], none⟩
          | false => ⟨some fp2, [fp2], none⟩

/-- State threaded through the `for p in plan` loop.  `aborted` records the
early `return` on an unknown tool (once set, the remaining iterations are
skipped, which is observationally the early return).  `faCalls` records
the snippet list passed into each `final_answer` invocation. -/
structure LoopState where
  snippets : List String
  payload : Option Jv
  persists : List Jv
  faCalls : List (List String)
  aborted : Option String

/-- One iteration of the loop body (lines 252-335). -/
def stepExec (env : Env) (u : String) (st : LoopState) (p : StepPlan) : LoopState :=
  if st.aborted.isSome then st
  else if env.hasTool p.tool = false then { st with aborted := some p.tool }
  else if p.tool = "final_answer" then
    let o := synthBranch env u st.snippets st.payload
    { st with
      snippets := match o.err with
        | some e => st.snippets ++ [errSnippet p.tool e]
        | none => st.snippets,
      payload := o.payload,
      persists := st.persists ++ o.persists,
      faCalls := st.faCalls ++ [st.snippets] }
  else
    match stepSnippet env p with
    | .error e => { st with snippets := st.snippets ++ [errSnippet p.tool e] }
    | .ok none => st
    | .ok (some s) => { st with snippets := st.snippets ++ [s] }

/-- The full loop over a step list. -/
def runLoop (env : Env) (u : String) (steps : List StepPlan) : LoopState :=
  steps.foldl (stepExec env u) ⟨[], none, [], [], none⟩

/-- The value `run` hands back to the caller: the unknown-tool warning
(a fault class distinct from step errors), or the serialized payload —
`json.dumps(final_payload or {...})` — represented by the payload value
itself. -/
inductive RunResult where
  | unknownTool (name : String)
  | answer (j : Jv)

structure RunTrace where
  result : RunResult
  snippets : List String
  payload : Option Jv
  persists : List Jv
  faCalls : List (List String)

/-- Line 337: `json.dumps(final_payload or {...})`, represented by the
payload value (the falsy check of `or` made explicit). -/
def finalValue (u : String) (pay : Option Jv) : Jv :=
  match pay with
  | some j => if j.truthy then j else fallbackPayload u
  | none => fallbackPayload u

/-- Assemble the observable trace of a finished loop. -/
def mkTrace (u : String) (st : LoopState) : RunTrace :=
  { result := match st.aborted with
      | some t => .unknownTool t
      | none => .answer (finalValue u st.payload),
    snippets := st.snippets,
    payload := st.payload,
    persists := st.persists,
    faCalls := st.faCalls }

/-- Embedding of `run`: build the plan, execute the loop, return. -/
def execRun (env : Env) (u : String) : RunTrace :=
  mkTrace u (runLoop env u (buildPlan u))

/-! ## Icon generation tool (`icon_generation_tool.py`)

`IconGenerationTool.forward` is modelled at the structured level: the tool
receives the parsed form of the concepts argument (`_coerce_concepts`
starts with `json.loads`; in the analyzed flow the orchestrator passes a
`json.dumps` of the concepts object, so the parse recovers exactly that
object).  The HTTP image generation plus file save for one concept is the
external parameter `gen idx concept` (`true` = the icon was produced);
`Option.none` marks inputs whose handling falls back to string-level
processing of the raw argument (the comma-split fallback), which is not
representable at this interface and is never reached in the verified
flows. -/

/-- One comprehension item of `_coerce_concepts`'s `visual_brief` branch:
non-dict items and items without a truthy `concept` are skipped; a truthy
non-string concept would raise on `.strip()` (→ `none`). -/
def briefConceptItem : Jv → Option (List String)
  | .obj fs =>
    match lookupF fs "concept" with
    | some c =>
      if c.truthy then
        match c with
        | .str s => some [String.mk (pyStrip s.toList)]
        | _ => none
      else some []
    | none => some []
  | _ => some []

/-- The full `visual_brief` comprehension, left to right. -/
def briefConcepts : List Jv → Option (List String)
  | [] => some []
  | it :: rest => do
    let h ← briefConceptItem it
    let t ← briefConcepts rest
    pure (h ++ t)

/-- `_coerce_concepts` on the parsed argument.  A dict with `visual_brief`
uses the comprehension; iterating a string or dict there yields no dict
items (empty result), while a non-iterable value raises into the
comma-split fallback (`none`).  The JSON-list branch and the comma-split
fallback work on string representations and are outside this structured
model (`none`). -/
def coerceConceptsStructured : Jv → Option (List String)
  | .obj fs =>
    match lookupF fs "visual_brief" with
    | some (.arr items) => briefConcepts items
    | some (.str _) => some []
    | some (.obj _) => some []
    | some _ => none
    | none => none
  | _ => none

/-- Default model id of the tool. -/
def fluxModel : String := "black-forest-labs/FLUX.1-schnell"

/-- Default style string (used when `style` is falsy; the orchestrator
always passes `style=None`). -/
def defaultIconStyle : String :=
  "flat minimalist, clean shapes, high contrast foreground, " ++
  "transparent background, no text, no letters, no digits, no math symbols, " ++
  "educational diagram style"

/-- The generation prompt built for one concept. -/
def iconPrompt (concept style context : String) : String :=
  concept ++ ". Create a simple, clear educational icon; " ++ style ++
  ". Context: " ++ context ++ ". Focus on geometry/shape; avoid text and numbers."

/-- The sanitized output filename for one concept at position `idx`
(`enumerate` starts at 1). -/
def iconFilename (concept : String) (idx : Nat) : String :=
  let safe := concept.toList.filter
    (fun c => c.isAlphanum || c = ' ' || c = '-' || c = '_')
  let safe := (safe.reverse.dropWhile pyIsSpace).reverse
  "icons/" ++ String.mk (safe.map (fun c => if c = ' ' then '_' else c)) ++
  "_icon_" ++ toString idx ++ ".png"

/-- The generation loop: one entry per concept whose generation succeeded;
the enumeration index advances on failures too. -/
def genIconsFrom (gen : Nat → String → Bool) (modelId style context : String) :
    Nat → List String → List Jv
  | _, [] => []
  | idx, c :: rest =>
    (if gen idx c then
      [Jv.obj [("concept", .str c), ("filename", .str (iconFilename c idx)),
               ("model", .str modelId), ("prompt", .str (iconPrompt c style context))]]
     else []) ++ genIconsFrom gen modelId style context (idx + 1) rest

/-- The `icon_paths` list accumulated alongside. -/
def genPathsFrom (gen : Nat → String → Bool) : Nat → List String → List Jv
  | _, [] => []
  | idx, c :: rest =>
    (if gen idx c then [Jv.str (iconFilename c idx)] else []) ++
    genPathsFrom gen (idx + 1) rest

/-- `IconGenerationTool.forward` (structured result; the source returns its
`json.dumps`).  The orchestrator passes `style=None`, so the default style
applies. -/
def iconToolForward (gen : Nat → String → Bool) (concepts : Jv)
    (context : String) : Option Jv :=
  match coerceConceptsStructured concepts with
  | none => none
  | some cl =>
    if cl.isEmpty then
      some (.obj [("generated_icons", .arr []), ("icon_paths", .arr []),
                  ("total_generated", .num 0), ("model_used", .str fluxModel)])
    else
      some (.obj [("generated_icons", .arr (genIconsFrom gen fluxModel defaultIconStyle context 1 cl)),
                  ("icon_paths", .arr (genPathsFrom gen 1 cl)),
                  ("total_generated", .num (genIconsFrom gen fluxModel defaultIconStyle context 1 cl).length),
                  ("model_used", .str fluxModel)])

/-! ## Persistence mechanism (lines 297-298 and 328-329)

`open("output/latest_explanation.json", "w")` truncates the file in place
and the new content is then written; there is no temporary file and no
rename.  The file-system effect of one `save` is the event list
`savePayloadOps`; atomicity from the caller's perspective means every
prefix of the event list leaves either the old or the full new content. -/

inductive FsOp where
  | truncate (path : String)
  | write (path : String) (data : String)

/-- The fixed, well-known persistence location. -/
def persistPath : String := "output/latest_explanation.json"

/-- The events performed by one persistence of serialized content. -/
def savePayloadOps (content : String) : List FsOp :=
  [.truncate persistPath, .write persistPath content]

/-- A file system: path to content (`none` = the file does not exist). -/
def initFs (old : String) : String → Option String :=
  fun q => if q = persistPath then some old else none

def applyOp (fs : String → Option String) : FsOp → (String → Option String)
  | .truncate p => fun q => if q = p then some "" else fs q
  | .write p d => fun q => if q = p then some ((fs p).getD "" ++ d) else fs q

def applyOps (fs : String → Option String) (ops : List FsOp) : String → Option String :=
  ops.foldl applyOp fs

/-- What a read of the persistence target observes after the first `n`
events of a save over old content `old` writing `new`. -/
def readAfter (old new : String) (n : Nat) : Option String :=
  applyOps (initFs old) ((savePayloadOps new).take n) persistPath

/-! ## Plan structure -/

/-- The tool-name sequence of a built plan, by case analysis on the
signals. -/
theorem buildPlanSig_tools (u : String) (wc : Bool) (cp : Option (List Char))
    (im wa : Bool) :
    (buildPlanSig u wc cp im wa).map (fun p => p.tool) =
      (if wc then ["ask_clarification"] else []) ++
      (if cp.isSome then ["code_analysis"] else []) ++
      (if im then ["sympy"] else []) ++
      (if wa then ["arxiv_search"] else []) ++ ["final_answer"] := by
  cases wc <;> cases cp <;> cases im <;> cases wa <;>
    simp [buildPlanSig, prePlanSig, appendStep]

/-- The index sequence of a built plan is `0, 1, …`. -/
theorem buildPlanSig_idx (u : String) (wc : Bool) (cp : Option (List Char))
    (im wa : Bool) :
    (buildPlanSig u wc cp im wa).map (fun p => p.idx) =
      List.range (buildPlanSig u wc cp im wa).length := by
  cases wc <;> cases cp <;> cases im <;> cases wa <;>
    simp [buildPlanSig, prePlanSig, appendStep] <;> decide

/-- C1: every plan produced by the plan builder, for every request text,
contains exactly one `final_answer` (synthesize) step and it is the last
element; every other tool occurs at most once; no `icon_generation`
(visualize) step is present; and the step indices are unique and
monotonically increasing. -/
theorem plan_structure_invariant (u : String) :
    (planTools u).count "final_answer" = 1 ∧
    ((buildPlan u).getLast?).map (fun p => p.tool) = some "final_answer" ∧
    (∀ t : String, t ≠ "final_answer" → (planTools u).count t ≤ 1) ∧
    (planTools u).count "icon_generation" = 0 ∧
    List.Pairwise (· < ·) ((buildPlan u).map (fun p => p.idx)) := by
  have key : ∀ (wc : Bool) (cp : Option (List Char)) (im wa : Bool),
      ((buildPlanSig u wc cp im wa).map (fun p => p.tool)).count "final_answer" = 1 ∧
      ((buildPlanSig u wc cp im wa).getLast?).map (fun p => p.tool) =
        some "final_answer" ∧
      (∀ t : String, t ≠ "final_answer" →
        ((buildPlanSig u wc cp im wa).map (fun p => p.tool)).count t ≤ 1) ∧
      ((buildPlanSig u wc cp im wa).map (fun p => p.tool)).count "icon_generation" = 0 ∧
      List.Pairwise (· < ·) ((buildPlanSig u wc cp im wa).map (fun p => p.idx)) := by
    intro wc cp im wa
    refine ⟨?_, ?_, ?_, ?_, ?_⟩
    · rw [buildPlanSig_tools]
      cases wc <;> cases cp <;> cases im <;> cases wa <;> simp
    · cases wc <;> cases cp <;> cases im <;> cases wa <;>
        simp [buildPlanSig, prePlanSig, appendStep]
    · intro t _
      have hn : ((buildPlanSig u wc cp im wa).map (fun p => p.tool)).Nodup := by
        rw [buildPlanSig_tools]
        cases wc <;> cases cp <;> cases im <;> cases wa <;> simp
      exact List.nodup_iff_count_le_one.mp hn t
    · rw [buildPlanSig_tools]
      cases wc <;> cases cp <;> cases im <;> cases wa <;> simp
    · rw [buildPlanSig_idx]; exact List.pairwise_lt_range _
  exact key (needsClarification u) (extractCodePath u.toList) (looksLikeMath u)
    (needsArxiv u (looksLikeMath u) (extractCodePath u.toList) (isTrivialArithmetic u))

/-- Witness for C1 at a concrete request and tool. -/
theorem plan_structure_invariant_w :
    (planTools "hello?").count "sympy" ≤ 1 :=
  (plan_structure_invariant "hello?").2.2.1 "sympy" (by decide)

/-- C2: for every request text matched by the trivial-arithmetic
classifier, the literature signal is false and the built plan contains no
`arxiv_search` step; for the request `"2+3?"` the signals are
`is_math = true`, `is_trivial_math = true`, `wants_literature_search =
false`, and the plan is exactly `[sympy, final_answer]`. -/
theorem trivial_arithmetic_suppresses_literature :
    (∀ u : String, isTrivialArithmetic u = true →
      needsArxiv u (looksLikeMath u) (extractCodePath u.toList)
        (isTrivialArithmetic u) = false ∧
      "arxiv_search" ∉ planTools u) ∧
    (looksLikeMath "2+3?" = true ∧ isTrivialArithmetic "2+3?" = true ∧
     needsArxiv "2+3?" (looksLikeMath "2+3?") (extractCodePath "2+3?".toList)
       (isTrivialArithmetic "2+3?") = false ∧
     planTools "2+3?" = ["sympy", "final_answer"]) := by
  constructor
  · intro u h
    have hna : needsArxiv u (looksLikeMath u) (extractCodePath u.toList)
        (isTrivialArithmetic u) = false := by
      unfold needsArxiv
      rw [h]
      cases (extractCodePath u.toList).isSome <;> simp
    refine ⟨hna, ?_⟩
    unfold planTools buildPlan
    rw [hna, buildPlanSig_tools]
    cases needsClarification u <;> cases (extractCodePath u.toList).isSome <;>
      cases looksLikeMath u <;> decide
  · exact ⟨by decide, by decide, by decide, by decide⟩

/-- Witness for C2 at a concrete trivial-arithmetic request. -/
theorem trivial_arithmetic_suppresses_literature_w :
    needsArxiv "what is 7*8?" (looksLikeMath "what is 7*8?")
      (extractCodePath "what is 7*8?".toList)
      (isTrivialArithmetic "what is 7*8?") = false ∧
    "arxiv_search" ∉ planTools "what is 7*8?" :=
  trivial_arithmetic_suppresses_literature.1 "what is 7*8?" (by decide)

/-! ## Clarification classifier (C6) -/

/-- The three input shapes in the claim's wording: too short after
trimming; all punctuation/symbol characters; a single long word with no
vowel and none of the intent-signalling keywords. -/
def claimClarShape (u : String) : Bool :=
  let t := pyStrip u.toList
  decide (t.length < 3) ||
  (!t.isEmpty && t.all (fun c => !pyIsWordChar c)) ||
  (t.all isAsciiLetter && decide (6 < t.length) && !t.any isVowel &&
   !(intentKeywords.any (fun k => containsSub k (lowerStr t))))

/-- Counterexample to C6 as stated: `"banana"` is a single six-letter word
with vowels and no intent keyword, which falls into none of the claim's
three shapes, yet the classifier requests clarification (the source's
fourth rule fires for any six-plus-letter single word without an intent
keyword, vowels or not). -/
theorem needs_clarification_claim_cex :
    needsClarification "banana" = true ∧ claimClarShape "banana" = false := by
  constructor <;> decide

/-- C6 (amended): `needs_clarification` is true exactly when the trimmed
text is shorter than 3 characters, or consists solely of non-word
characters (or underscores), or is longer than 6 characters with no vowel
anywhere (single word or not), or is a single alphabetic word of at least
6 letters containing none of the intent keywords. -/
theorem needs_clarification_characterization (u : String) :
    needsClarification u = true ↔
      ((pyStrip u.toList).length < 3 ∨
       (pyStrip u.toList).all (fun c => !pyIsWordChar c || c = '_') = true ∨
       ((pyStrip u.toList).any isVowel = false ∧ 6 < (pyStrip u.toList).length) ∨
       (6 ≤ (pyStrip u.toList).length ∧
        (pyStrip u.toList).all isAsciiLetter = true ∧
        intentKeywords.any
          (fun k => containsSub k (lowerStr (pyStrip u.toList))) = false)) := by
  unfold needsClarification needsClarificationCore
  split_ifs with h1 h2 h3 h4 <;> simp_all

/-! ## Post-synthesis visual decision (C4) -/

def jvIsStr : Jv → Bool
  | .str _ => true
  | _ => false

/-- Shape constraint on an `explanation` value under which the Python
attribute chain of `_wants_icons_from_final` cannot raise: the value is
falsy, or a dict whose `content` is absent, falsy, or a string. -/
def explShapeOk (e : Jv) : Bool :=
  if e.truthy = false then true
  else
    match e with
    | .obj efs =>
      match lookupF efs "content" with
      | none => true
      | some c => !c.truthy || jvIsStr c
    | _ => false

/-- Payloads on which the decision is exception-free: falsy values, and
dicts whose `explanation` satisfies `explShapeOk` (this is in particular
every payload of the Synthesis Payload shape of the data model). -/
def wellFormedPayload : Jv → Bool
  | .obj fs =>
    match lookupF fs "explanation" with
    | none => true
    | some e => explShapeOk e
  | j => !j.truthy

/-- Spec side, clause (b): the payload's `visual_brief` is a non-empty
list. -/
def vbNonEmptyList (p : Jv) : Bool :=
  match p with
  | .obj fs =>
    match lookupF fs "visual_brief" with
    | some (.arr (_ :: _)) => true
    | _ => false
  | _ => false

/-- The explanation content string of a payload (empty when absent or not
a string). -/
def explContentOf (p : Jv) : String :=
  match p with
  | .obj fs =>
    match lookupF fs "explanation" with
    | some (.obj efs) =>
      match lookupF efs "content" with
      | some (.str s) => s
      | _ => ""
    | _ => ""
  | _ => ""

/-- Spec side, clause (c): the explanation content contains a word of the
visual/spatial vocabulary (case-insensitively, as the code lowers the
text before scanning). -/
def explHasCue (p : Jv) : Bool :=
  visualCues.any (fun k => containsSub k (lowerStr (explContentOf p).toList))

/-- The decision taken at lines 303-305: `user_wants or final_wants`, with
`_wants_icons_from_final` evaluated unconditionally. -/
def iconDecision (u : String) (p : Jv) : Except String Bool :=
  match wantsIconsFromFinal p with
  | .error e => .error e
  | .ok fw => .ok (wantsIconsFromUser u || fw)

theorem explCueCheck_obj (fs : List (String × Jv))
    (h : wellFormedPayload (.obj fs) = true) :
    explCueCheck (.obj fs) = .ok (explHasCue (.obj fs)) := by
  simp only [wellFormedPayload] at h
  unfold explCueCheck explHasCue explContentOf
  simp only [pyGetAttr]
  rcases hex : lookupF fs "explanation" with _ | e
  · rfl
  · rw [hex] at h
    have h2 : explShapeOk e = true := h
    rcases e with _ | b | n | s | xs | efs
    · rfl
    · cases b
      · rfl
      · simp [explShapeOk, Jv.truthy, jvIsStr] at h2
    · rcases hn : decide (n = 0) with _ | _
      · simp [explShapeOk, Jv.truthy, jvIsStr, hn] at h2
      · have hn0 : n = 0 := of_decide_eq_true hn
        subst hn0
        rfl
    · rcases hs : s.isEmpty with _ | _
      · simp [explShapeOk, Jv.truthy, jvIsStr, hs] at h2
      · have hs0 : s = "" := (String.isEmpty_iff s).mp hs
        subst hs0
        rfl
    · rcases xs with _ | ⟨x, xs⟩
      · rfl
      · simp [explShapeOk, Jv.truthy, jvIsStr] at h2
    · rcases efs with _ | ⟨ef, efs⟩
      · rfl
      · simp only [explShapeOk, Jv.truthy, List.isEmpty_cons, Bool.not_false,
          Bool.not_true, Bool.false_eq_true, if_false, if_true, pyGetAttr,
          Option.getD_some] at h2 ⊢
        rcases hc : lookupF (ef :: efs) "content" with _ | c
        · rfl
        · rw [hc] at h2
          have h3 : (!c.truthy || jvIsStr c) = true := h2
          rcases c with _ | b | n | s | xs | cfs
          · rfl
          · cases b
            · rfl
            · simp [Jv.truthy, jvIsStr] at h3
          · rcases hn : decide (n = 0) with _ | _
            · simp [Jv.truthy, jvIsStr, hn] at h3
            · have hn0 : n = 0 := of_decide_eq_true hn
              subst hn0
              rfl
          · rcases hs : s.isEmpty with _ | _
            · simp [Jv.truthy, hs, pyLower, lowerStr, String.toList]
            · have hs0 : s = "" := (String.isEmpty_iff s).mp hs
              subst hs0
              rfl
          · rcases xs with _ | ⟨x, xs⟩
            · rfl
            · simp [Jv.truthy, jvIsStr] at h3
          · rcases cfs with _ | ⟨cf, cfs⟩
            · rfl
            · simp [Jv.truthy, jvIsStr] at h3

theorem wantsIconsFromFinal_eq (p : Jv) (h : wellFormedPayload p = true) :
    wantsIconsFromFinal p = .ok (vbNonEmptyList p || explHasCue p) := by
  rcases p with _ | b | n | s | xs | fs
  · rfl
  · cases b
    · rfl
    · simp [wellFormedPayload, Jv.truthy] at h
  · rcases hn : decide (n = 0) with _ | _
    · simp [wellFormedPayload, Jv.truthy, hn] at h
    · have hn0 : n = 0 := of_decide_eq_true hn
      subst hn0
      rfl
  · rcases hs : s.isEmpty with _ | _
    · simp [wellFormedPayload, Jv.truthy, hs] at h
    · have hs0 : s = "" := (String.isEmpty_iff s).mp hs
      subst hs0
      rfl
  · rcases xs with _ | ⟨x, xs⟩
    · rfl
    · simp [wellFormedPayload, Jv.truthy] at h
  · rcases fs with _ | ⟨f0, fs0⟩
    · rfl
    · have hec := explCueCheck_obj (f0 :: fs0) h
      unfold wantsIconsFromFinal vbNonEmptyList
      simp only [pyGetAttr, Jv.truthy, List.isEmpty_cons, Bool.not_false]
      rcases hvb : lookupF (f0 :: fs0) "visual_brief" with _ | v
      · simp [hec]
      · rcases v with _ | vb | n2 | s2 | vxs | vfs
        · simp [hec]
        · cases vb
          · simp [hec]
          · simp [hec, Jv.truthy]
        · rcases hn2 : decide (n2 = 0) with _ | _
          · simp [hec, Jv.truthy, hn2]
          · simp [hec, Jv.truthy, hn2]
        · rcases hs2 : s2.isEmpty with _ | _
          · simp [hec, Jv.truthy, hs2]
          · simp [hec, Jv.truthy, hs2]
        · rcases vxs with _ | ⟨vx, vxs⟩
          · simp [hec]
          · simp [hec, Jv.truthy]
        · rcases vfs with _ | ⟨vf, vfs⟩
          · simp [hec]
          · simp [hec, Jv.truthy]

/-- C4: the post-synthesis visual decision is true exactly when the
request shows explicit visual intent, or the payload's `visual_brief` is a
non-empty list, or the explanation content contains visual/spatial
vocabulary; and for the request
`"explain quantum entanglement with a diagram"` the decision is true
whatever the (well-formed) payload holds. -/
theorem visual_decision_spec :
    (∀ (u : String) (p : Jv), wellFormedPayload p = true →
      iconDecision u p =
        .ok (wantsIconsFromUser u || vbNonEmptyList p || explHasCue p)) ∧
    (∀ p : Jv, wellFormedPayload p = true →
      iconDecision "explain quantum entanglement with a diagram" p = .ok true) := by
  have main : ∀ (u : String) (p : Jv), wellFormedPayload p = true →
      iconDecision u p =
        .ok (wantsIconsFromUser u || vbNonEmptyList p || explHasCue p) := by
    intro u p h
    unfold iconDecision
    rw [wantsIconsFromFinal_eq p h]
    simp [Bool.or_assoc]
  refine ⟨main, fun p h => ?_⟩
  rw [main _ p h]
  have hu : wantsIconsFromUser "explain quantum entanglement with a diagram" = true := by
    decide
  rw [hu]
  simp

/-- Witness for C4 at a concrete payload with a non-empty visual brief. -/
theorem visual_decision_spec_w :
    iconDecision "what is a derivative"
      (.obj [("explanation", .obj [("content", .str "Slope of a curve.")]),
             ("visual_brief", .arr [.obj [("concept", .str "tangent line")]])]) =
      .ok (wantsIconsFromUser "what is a derivative" ||
           vbNonEmptyList
             (.obj [("explanation", .obj [("content", .str "Slope of a curve.")]),
                    ("visual_brief", .arr [.obj [("concept", .str "tangent line")]])]) ||
           explHasCue
             (.obj [("explanation", .obj [("content", .str "Slope of a curve.")]),
                    ("visual_brief", .arr [.obj [("concept", .str "tangent line")]])])) :=
  visual_decision_spec.1 "what is a derivative" _ (by decide)

/-! ## Payload observation helpers and field-list lemmas -/

/-- Key lookup through a JSON value (`none` on non-dicts). -/
def lookupJ (j : Jv) (k : String) : Option Jv :=
  match j with
  | .obj fs => lookupF fs k
  | _ => none

/-- The payload has the key (and is a dict). -/
def hasKeyB (j : Jv) (k : String) : Bool := (lookupJ j k).isSome

/-- The payload has a dict under `visual_assets` with an `icons` key. -/
def hasIconsPath (j : Jv) : Bool :=
  match lookupJ j "visual_assets" with
  | some (.obj vfs) => (lookupF vfs "icons").isSome
  | _ => false

/-- The value stored at `visual_assets.icons`. -/
def getIcons (j : Jv) : Option Jv :=
  match lookupJ j "visual_assets" with
  | some (.obj vfs) => lookupF vfs "icons"
  | _ => none

theorem lookupF_append (fs gs : List (String × Jv)) (k : String) :
    lookupF (fs ++ gs) k =
      (match lookupF fs k with
       | some v => some v
       | none => lookupF gs k) := by
  induction fs with
  | nil => simp [lookupF]
  | cons f fs ih =>
    by_cases hk : f.1 = k
    · simp [lookupF, hk]
    · simp [lookupF, hk, ih]

theorem lookupF_setF_self (fs : List (String × Jv)) (k : String) (v : Jv) :
    lookupF (setF fs k v) k = some v := by
  induction fs with
  | nil => simp [setF, lookupF]
  | cons f fs ih =>
    by_cases hk : f.1 = k
    · simp [setF, lookupF, hk]
    · simp [setF, lookupF, hk, ih]

theorem lookupF_setF_ne (fs : List (String × Jv)) (k k2 : String) (v : Jv)
    (h : k2 ≠ k) :
    lookupF (setF fs k v) k2 = lookupF fs k2 := by
  have hne : ¬ k = k2 := fun hh => h hh.symm
  induction fs with
  | nil => simp [setF, lookupF, hne]
  | cons f fs ih =>
    rcases f with ⟨fk, fv⟩
    by_cases hk : fk = k
    · subst hk
      simp [setF, lookupF, hne]
    · by_cases hk2 : fk = k2
      · simp [setF, lookupF, hk, hk2, h]
      · simp [setF, lookupF, hk, hk2, ih]

/-- `setdefault` guarantees the key and touches no other key. -/
theorem pySetdefault_ok (p q : Jv) (k : String) (d : Jv)
    (h : pySetdefault p k d = .ok q) :
    hasKeyB q k = true ∧ (∀ k2, k2 ≠ k → lookupJ q k2 = lookupJ p k2) := by
  rcases p with _ | b | n | s | xs | fs <;> simp [pySetdefault] at h
  rcases hl : lookupF fs k with _ | v <;> rw [hl] at h <;> simp at h <;> subst h
  · constructor
    · simp [hasKeyB, lookupJ, lookupF_append, hl, lookupF]
    · intro k2 hk2
      have hne : ¬ k = k2 := fun hh => hk2 hh.symm
      rcases hg : lookupF fs k2 with _ | w <;>
        simp [lookupJ, lookupF_append, hg, lookupF, hne]
  · exact ⟨by simp [hasKeyB, lookupJ, hl], fun k2 _ => rfl⟩

/-- Second `setdefault` line: guarantees the `visual_assets.icons` path and
touches no key other than `visual_assets`. -/
theorem setdefaultVAIcons_ok (p q : Jv)
    (h : setdefaultVAIcons p = .ok q) :
    hasIconsPath q = true ∧
    (∀ k2, k2 ≠ "visual_assets" → lookupJ q k2 = lookupJ p k2) := by
  rcases p with _ | b | n | s | xs | fs <;> simp [setdefaultVAIcons] at h
  rcases hl : lookupF fs "visual_assets" with _ | v <;> rw [hl] at h
  · simp at h
    subst h
    constructor
    · simp [hasIconsPath, lookupJ, lookupF_append, hl, lookupF]
    · intro k2 hk2
      have hne : ¬ "visual_assets" = k2 := fun hh => hk2 hh.symm
      rcases hg : lookupF fs k2 with _ | w <;>
        simp [lookupJ, lookupF_append, hg, lookupF, hne]
  · rcases v with _ | b | n | s | vxs | vfs <;> simp at h
    rcases hi : lookupF vfs "icons" with _ | w <;> rw [hi] at h <;>
      simp at h <;> subst h
    · constructor
      · simp [hasIconsPath, lookupJ, lookupF_setF_self, lookupF_append, hi, lookupF]
      · intro k2 hk2
        simp [lookupJ, lookupF_setF_ne fs "visual_assets" k2 _ hk2]
    · exact ⟨by simp [hasIconsPath, lookupJ, hl, hi], fun k2 _ => rfl⟩

/-- The icon merge assignment: replaces `visual_assets.icons` and touches
no key other than `visual_assets`. -/
theorem setIcons_ok (p q : Jv) (icons : List Jv)
    (h : setIcons p icons = .ok q) :
    getIcons q = some (.arr icons) ∧
    (∀ k2, k2 ≠ "visual_assets" → lookupJ q k2 = lookupJ p k2) := by
  rcases p with _ | b | n | s | xs | fs <;> simp [setIcons] at h
  rcases hl : lookupF fs "visual_assets" with _ | v <;> rw [hl] at h
  · simp at h
  · rcases v with _ | b | n | s | vxs | vfs <;> simp at h
    subst h
    constructor
    · simp [getIcons, lookupJ, lookupF_setF_self]
    · intro k2 hk2
      simp [lookupJ, lookupF_setF_ne fs "visual_assets" k2 _ hk2]

theorem hasKeyB_truthy (j : Jv) (k : String) (h : hasKeyB j k = true) :
    j.truthy = true := by
  rcases j with _ | b | n | s | xs | fs <;> simp [hasKeyB, lookupJ] at h
  rcases fs with _ | ⟨f, fs⟩
  · simp [lookupF] at h
  · simp [Jv.truthy]

/-- `explContentOf` factors through `lookupJ _ "explanation"`. -/
theorem explContentOf_lookupJ (p : Jv) :
    explContentOf p =
      (match lookupJ p "explanation" with
       | some (.obj efs) =>
         (match lookupF efs "content" with
          | some (.str s) => s
          | _ => "")
       | _ => "") := by
  rcases p with _ | b | n | s | xs | fs <;> rfl

/-! ## Synthesis-branch structure -/

/-- The payload fields the post-synthesis icon handling must not touch. -/
def frameEq (a b : Jv) : Prop :=
  lookupJ a "question" = lookupJ b "question" ∧
  lookupJ a "explanation" = lookupJ b "explanation" ∧
  lookupJ a "visual_brief" = lookupJ b "visual_brief"

/-- A successful icon sub-branch is exactly an icon-list assignment on the
payload it received. -/
theorem iconSubBranch_isSetIcons (env : Env) (u : String) (fp2 fp3 : Jv)
    (h : iconSubBranch env u fp2 = .ok fp3) :
    ∃ icons, setIcons fp2 icons = .ok fp3 := by
  unfold iconSubBranch at h
  repeat' split at h
  all_goals first
  | exact ⟨_, h⟩
  | simp at h

/-- Case analysis of the `final_answer` branch: either nothing was
persisted, or the backfilled payload `fp2` was persisted (and possibly an
icon merge `fp3` of it afterwards); every persisted payload carries the
`visual_brief` key and the `visual_assets.icons` path. -/
theorem synthBranch_main (env : Env) (u : String) (snips : List String)
    (pay0 : Option Jv) :
    (synthBranch env u snips pay0).persists = [] ∨
    ∃ fp2, hasKeyB fp2 "visual_brief" = true ∧ hasIconsPath fp2 = true ∧
      ((synthBranch env u snips pay0).persists = [fp2] ∧
       (synthBranch env u snips pay0).payload = some fp2 ∨
       ∃ fp3 icons, setIcons fp2 icons = .ok fp3 ∧
         (synthBranch env u snips pay0).persists = [fp2, fp3] ∧
         (synthBranch env u snips pay0).payload = some fp3) := by
  unfold synthBranch
  cases hfa : env.finalAnswer u (contextBlob snips) with
  | error e => simp
  | ok r =>
    cases hsd : pySetdefault (parsePayload env u r) "visual_brief" (.arr []) with
    | error e => simp [hsd]
    | ok fp1 =>
      simp only [hsd]
      cases hva : setdefaultVAIcons fp1 with
      | error e => simp [hva]
      | ok fp2 =>
        simp only [hva]
        have h1 := pySetdefault_ok _ _ _ _ hsd
        have h2 := setdefaultVAIcons_ok _ _ hva
        have hkey : hasKeyB fp2 "visual_brief" = true := by
          unfold hasKeyB at h1 ⊢
          rw [h2.2 "visual_brief" (by decide)]
          exact h1.1
        cases hw : wantsIconsFromFinal fp2 with
        | error e =>
          simp only [hw]
          exact Or.inr ⟨fp2, hkey, h2.1, Or.inl ⟨rfl, rfl⟩⟩
        | ok fw =>
          simp only [hw]
          cases hcond : (wantsIconsFromUser u || fw) && env.hasTool "icon_generation" with
          | false =>
            simp only [hcond]
            exact Or.inr ⟨fp2, hkey, h2.1, Or.inl ⟨rfl, rfl⟩⟩
          | true =>
            simp only [hcond]
            cases hib : iconSubBranch env u fp2 with
            | error e =>
              simp only [hib]
              exact Or.inr ⟨fp2, hkey, h2.1, Or.inl ⟨rfl, rfl⟩⟩
            | ok fp3 =>
              simp only [hib]
              obtain ⟨icons, hset⟩ := iconSubBranch_isSetIcons env u fp2 fp3 hib
              exact Or.inr ⟨fp2, hkey, h2.1,
                Or.inr ⟨fp3, icons, hset, rfl, rfl⟩⟩

theorem hasIconsPath_of_getIcons (j v : Jv) (h : getIcons j = some v) :
    hasIconsPath j = true := by
  unfold getIcons at h
  unfold hasIconsPath
  rcases hl : lookupJ j "visual_assets" with _ | w <;> rw [hl] at h
  · simp at h
  · rcases w with _ | b | n | s | xs | vfs <;> simp at h
    simp [h]

theorem synthBranch_persist_keys (env : Env) (u : String) (snips : List String)
    (pay0 : Option Jv) :
    ∀ j ∈ (synthBranch env u snips pay0).persists,
      hasKeyB j "visual_brief" = true ∧ hasIconsPath j = true := by
  rcases synthBranch_main env u snips pay0 with h | ⟨fp2, hkey, hicons, hrest⟩
  · rw [h]; intro j hj; simp at hj
  · rcases hrest with ⟨hp, _⟩ | ⟨fp3, icons, hset, hp, _⟩
    · rw [hp]
      intro j hj
      simp at hj
      subst hj
      exact ⟨hkey, hicons⟩
    · rw [hp]
      intro j hj
      have hs := setIcons_ok fp2 fp3 icons hset
      simp at hj
      rcases hj with rfl | rfl
      · exact ⟨hkey, hicons⟩
      · constructor
        · unfold hasKeyB at hkey ⊢
          rw [hs.2 "visual_brief" (by decide)]
          exact hkey
        · exact hasIconsPath_of_getIcons _ _ hs.1

/-! ## Loop lemmas -/

/-- The snippet contribution of one non-synthesis step. -/
def stepSnippetList (env : Env) (p : StepPlan) : List String :=
  match stepSnippet env p with
  | .error e => [errSnippet p.tool e]
  | .ok none => []
  | .ok (some s) => [s]

/-- Snippets accumulated over a list of non-synthesis steps. -/
def snippetsOf (env : Env) : List StepPlan → List String
  | [] => []
  | p :: rest => stepSnippetList env p ++ snippetsOf env rest

theorem stepExec_nonfinal (env : Env) (u : String) (st : LoopState) (p : StepPlan)
    (h1 : st.aborted = none) (h2 : env.hasTool p.tool = true)
    (h3 : p.tool ≠ "final_answer") :
    stepExec env u st p = { st with snippets := st.snippets ++ stepSnippetList env p } := by
  unfold stepExec stepSnippetList
  rw [h1, h2]
  simp only [Option.isSome_none, Bool.false_eq_true, if_false, Bool.true_eq_false,
    if_neg h3]
  rcases hs : stepSnippet env p with e | o
  · rfl
  · rcases o with _ | s2
    · simp [← h1]
    · rfl

theorem runLoop_pre (env : Env) (u : String) :
    ∀ (steps : List StepPlan) (st : LoopState), st.aborted = none →
      (∀ q ∈ steps, env.hasTool q.tool = true) →
      (∀ q ∈ steps, q.tool ≠ "final_answer") →
      steps.foldl (stepExec env u) st =
        { st with snippets := st.snippets ++ snippetsOf env steps } := by
  intro steps
  induction steps with
  | nil =>
    intro st h1 _ _
    simp [snippetsOf]
  | cons p rest ih =>
    intro st h1 h2 h3
    simp only [List.foldl_cons, snippetsOf]
    rw [stepExec_nonfinal env u st p h1 (h2 p (List.mem_cons_self p rest))
      (h3 p (List.mem_cons_self p rest))]
    rw [ih { st with snippets := st.snippets ++ stepSnippetList env p }
      (by exact h1) (fun q hq => h2 q (List.mem_cons_of_mem p hq))
      (fun q hq => h3 q (List.mem_cons_of_mem p hq))]
    simp

/-- The non-synthesis prefix of every generated plan. -/
theorem buildPlan_split (u : String) :
    ∃ pre fin, buildPlan u = pre ++ [fin] ∧ fin.tool = "final_answer" ∧
      (∀ q ∈ pre, q.tool ≠ "final_answer") := by
  refine ⟨_, _, rfl, rfl, ?_⟩
  have key : ∀ (wc : Bool) (cp : Option (List Char)) (im wa : Bool),
      ∀ q ∈ (prePlanSig u wc cp im wa).1, q.tool ≠ "final_answer" := by
    intro wc cp im wa
    cases wc <;> cases cp <;> cases im <;> cases wa <;>
      simp [prePlanSig, appendStep]
  exact key _ _ _ _

theorem stepExec_aborted_none (env : Env) (u : String) (st : LoopState)
    (p : StepPlan) (h1 : st.aborted = none) (h2 : env.hasTool p.tool = true) :
    (stepExec env u st p).aborted = none := by
  unfold stepExec
  rw [h1, h2]
  simp only [Option.isSome_none, Bool.false_eq_true, if_false, Bool.true_eq_false]
  by_cases h3 : p.tool = "final_answer"
  · rw [if_pos h3]
  · rw [if_neg h3]
    rcases hs : stepSnippet env p with e | o
    · rfl
    · rcases o with _ | s2
      · exact h1
      · rfl

theorem stepExec_aborted_cases (env : Env) (u : String) (st : LoopState)
    (p : StepPlan) (t : String) (h : (stepExec env u st p).aborted = some t) :
    st.aborted = some t ∨ (t = p.tool ∧ env.hasTool t = false) := by
  unfold stepExec at h
  by_cases h1 : st.aborted.isSome = true
  · rw [if_pos h1] at h
    exact Or.inl h
  · rw [if_neg h1] at h
    by_cases h2 : env.hasTool p.tool = false
    · rw [if_pos h2] at h
      simp only [LoopState.aborted] at h
      have ht : p.tool = t := by simpa using h
      subst ht
      exact Or.inr ⟨rfl, h2⟩
    · rw [if_neg h2] at h
      by_cases h3 : p.tool = "final_answer"
      · rw [if_pos h3] at h
        exact Or.inl h
      · rw [if_neg h3] at h
        rcases hs : stepSnippet env p with e | o <;> rw [hs] at h
        · exact Or.inl h
        · rcases o with _ | s2 <;> exact Or.inl h

theorem runLoop_no_abort (env : Env) (u : String) :
    ∀ (steps : List StepPlan) (st : LoopState), st.aborted = none →
      (∀ q ∈ steps, env.hasTool q.tool = true) →
      (steps.foldl (stepExec env u) st).aborted = none := by
  intro steps
  induction steps with
  | nil => intro st h1 _; exact h1
  | cons p rest ih =>
    intro st h1 h2
    simp only [List.foldl_cons]
    exact ih _ (stepExec_aborted_none env u st p h1 (h2 p (List.mem_cons_self p rest)))
      (fun q hq => h2 q (List.mem_cons_of_mem p hq))

theorem runLoop_abort_cases (env : Env) (u : String) :
    ∀ (steps : List StepPlan) (st : LoopState) (t : String),
      (steps.foldl (stepExec env u) st).aborted = some t →
      st.aborted = some t ∨ (t ∈ steps.map (fun p => p.tool) ∧ env.hasTool t = false) := by
  intro steps
  induction steps with
  | nil => intro st t h; exact Or.inl h
  | cons p rest ih =>
    intro st t h
    simp only [List.foldl_cons] at h
    rcases ih _ t h with h4 | ⟨hmem, hft⟩
    · rcases stepExec_aborted_cases env u st p t h4 with h5 | ⟨h5, h6⟩
      · exact Or.inl h5
      · exact Or.inr ⟨by simp [h5], h6⟩
    · exact Or.inr ⟨by simp [hmem], hft⟩

theorem stepExec_persists_sub (env : Env) (u : String) (st : LoopState)
    (p : StepPlan) :
    ∀ j ∈ (stepExec env u st p).persists,
      j ∈ st.persists ∨ j ∈ (synthBranch env u st.snippets st.payload).persists := by
  intro j hj
  unfold stepExec at hj
  by_cases h1 : st.aborted.isSome = true
  · rw [if_pos h1] at hj
    exact Or.inl hj
  · rw [if_neg h1] at hj
    by_cases h2 : env.hasTool p.tool = false
    · rw [if_pos h2] at hj
      exact Or.inl hj
    · rw [if_neg h2] at hj
      by_cases h3 : p.tool = "final_answer"
      · rw [if_pos h3] at hj
        exact List.mem_append.mp hj
      · rw [if_neg h3] at hj
        rcases hs : stepSnippet env p with e | o <;> rw [hs] at hj
        · exact Or.inl hj
        · rcases o with _ | s2 <;> exact Or.inl hj

theorem runLoop_persist_keys (env : Env) (u : String) :
    ∀ (steps : List StepPlan) (st : LoopState),
      (∀ j ∈ st.persists, hasKeyB j "visual_brief" = true ∧ hasIconsPath j = true) →
      ∀ j ∈ (steps.foldl (stepExec env u) st).persists,
        hasKeyB j "visual_brief" = true ∧ hasIconsPath j = true := by
  intro steps
  induction steps with
  | nil => intro st h; simpa using h
  | cons p rest ih =>
    intro st h
    simp only [List.foldl_cons]
    apply ih
    intro j hj
    rcases stepExec_persists_sub env u st p j hj with h4 | h4
    · exact h j h4
    · exact synthBranch_persist_keys env u st.snippets st.payload j h4

/-! ## Trace projections and the final step -/

theorem mkTrace_result_none (u : String) (st : LoopState) (h : st.aborted = none) :
    (mkTrace u st).result = .answer (finalValue u st.payload) := by
  unfold mkTrace
  rw [h]

theorem mkTrace_result_unknown (u : String) (st : LoopState) (t : String)
    (h : (mkTrace u st).result = .unknownTool t) : st.aborted = some t := by
  unfold mkTrace at h
  rcases habs : st.aborted with _ | t2 <;> rw [habs] at h <;> simp at h
  rw [h]

/-- Executing the synthesis step from a live state. -/
theorem stepExec_final (env : Env) (u : String) (st : LoopState) (fin : StepPlan)
    (hfin : fin.tool = "final_answer") (h1 : st.aborted = none)
    (h2 : env.hasTool "final_answer" = true) :
    stepExec env u st fin =
      { snippets := st.snippets ++
          (match (synthBranch env u st.snippets st.payload).err with
           | some e => [errSnippet "final_answer" e]
           | none => []),
        payload := (synthBranch env u st.snippets st.payload).payload,
        persists := st.persists ++ (synthBranch env u st.snippets st.payload).persists,
        faCalls := st.faCalls ++ [st.snippets],
        aborted := none } := by
  unfold stepExec
  rw [hfin, h1, h2]
  simp
  rcases (synthBranch env u st.snippets st.payload).err with _ | e <;> simp

theorem stepExec_of_aborted (env : Env) (u : String) (st : LoopState)
    (p : StepPlan) (h : st.aborted.isSome = true) :
    stepExec env u st p = st := by
  unfold stepExec
  rw [if_pos h]

/-- Non-synthesis steps (even aborted or unknown-tool ones) leave the
payload and the persisted snapshots alone. -/
theorem stepExec_nonfinal_frame (env : Env) (u : String) (st : LoopState)
    (p : StepPlan) (h3 : p.tool ≠ "final_answer") :
    (stepExec env u st p).persists = st.persists ∧
    (stepExec env u st p).payload = st.payload ∧
    (stepExec env u st p).faCalls = st.faCalls := by
  unfold stepExec
  by_cases h1 : st.aborted.isSome = true
  · rw [if_pos h1]
    exact ⟨rfl, rfl, rfl⟩
  · rw [if_neg h1]
    by_cases h2 : env.hasTool p.tool = false
    · rw [if_pos h2]
      exact ⟨rfl, rfl, rfl⟩
    · rw [if_neg h2, if_neg h3]
      rcases hs : stepSnippet env p with e | o
      · exact ⟨rfl, rfl, rfl⟩
      · rcases o with _ | s2 <;> exact ⟨rfl, rfl, rfl⟩

theorem runPre_frame (env : Env) (u : String) :
    ∀ (steps : List StepPlan) (st : LoopState),
      (∀ q ∈ steps, q.tool ≠ "final_answer") →
      (steps.foldl (stepExec env u) st).persists = st.persists ∧
      (steps.foldl (stepExec env u) st).payload = st.payload ∧
      (steps.foldl (stepExec env u) st).faCalls = st.faCalls := by
  intro steps
  induction steps with
  | nil => intro st _; exact ⟨rfl, rfl, rfl⟩
  | cons p rest ih =>
    intro st h3
    simp only [List.foldl_cons]
    have hstep := stepExec_nonfinal_frame env u st p (h3 p (List.mem_cons_self p rest))
    have hrest := ih (stepExec env u st p) (fun q hq => h3 q (List.mem_cons_of_mem p hq))
    exact ⟨hrest.1.trans hstep.1, (hrest.2.1).trans hstep.2.1,
      (hrest.2.2).trans hstep.2.2⟩

/-! ## C5 — backfilled keys at persistence (corrected claim) -/

/-- C5 (amended): at every moment of persistence, the payload written to
`output/latest_explanation.json` carries the `visual_brief` key and the
`visual_assets.icons` path (backfilled before the first write and
preserved by the icon merge). -/
theorem persisted_payload_has_visual_keys (env : Env) (u : String) (j : Jv)
    (hj : j ∈ (execRun env u).persists) :
    hasKeyB j "visual_brief" = true ∧ hasIconsPath j = true :=
  runLoop_persist_keys env u (buildPlan u) ⟨[], none, [], [], none⟩
    (by intro j2 hj2; simp at hj2) j hj

/-- A synthesis payload in the shape the collaborator contract promises. -/
def goodSynthJv : Jv :=
  .obj [("explanation", .obj [("content", .str "Imagine a spinning vector.")])]

/-- A fully wired environment whose synthesis collaborator returns the
parseable payload `goodSynthJv` and whose visualizer is offline. -/
def envGoodSynth : Env :=
  { hasTool := fun _ => true,
    clarify := fun _ => .ok "",
    codeAnalysis := fun _ _ => .ok "",
    sympy := fun _ => .ok "",
    arxiv := fun _ _ _ => .ok "papers",
    finalAnswer := fun _ _ => .ok "SYN",
    iconGen := fun _ _ => .error "offline",
    jsonLoads := fun s => if s = "SYN" then .ok goodSynthJv else .error "invalid" }

/-- The backfilled payload the run of `envGoodSynth` on `"hello?"`
persists. -/
def fp2W : Jv :=
  .obj [("explanation", .obj [("content", .str "Imagine a spinning vector.")]),
        ("visual_brief", .arr []),
        ("visual_assets", .obj [("icons", .arr [])])]

/-- Witness for C5's amended theorem on a run that persists `fp2W`. -/
theorem persisted_payload_has_visual_keys_w :
    hasKeyB fp2W "visual_brief" = true ∧ hasIconsPath fp2W = true :=
  persisted_payload_has_visual_keys envGoodSynth "hello?" fp2W
    (by
      have h : (execRun envGoodSynth "hello?").persists = [fp2W] := rfl
      rw [h]
      exact List.mem_singleton.mpr rfl)

/-- An environment whose synthesis collaborator returns the valid
non-object JSON text `"[1]"`. -/
def envListPayload : Env :=
  { hasTool := fun _ => true,
    clarify := fun _ => .ok "",
    codeAnalysis := fun _ _ => .ok "",
    sympy := fun _ => .ok "",
    arxiv := fun _ _ _ => .ok "papers",
    finalAnswer := fun _ _ => .ok "[1]",
    iconGen := fun _ _ => .error "unused",
    jsonLoads := fun s => if s = "[1]" then .ok (.arr [.num 1]) else .error "invalid" }

/-- Counterexample to C5 as stated: when the synthesis collaborator
returns the valid non-object JSON `[1]`, the backfilling `setdefault`
raises, nothing is persisted, and `run` returns the raw list — a payload
without the `visual_brief` (or `visual_assets.icons`) key. -/
theorem returned_payload_missing_keys_cex :
    (execRun envListPayload "hello?").result = .answer (.arr [.num 1]) ∧
    hasKeyB (.arr [.num 1]) "visual_brief" = false ∧
    (execRun envListPayload "hello?").persists = [] := by
  exact ⟨rfl, rfl, rfl⟩

/-! ## C7 — the only caller-visible fault is an unknown tool -/

/-- C7: the run never surfaces a collaborator failure to the caller: with
every planned tool registered the result is always a normal answer, and
the distinguished unknown-tool fault occurs only for a tool named by the
plan that is missing from the registry. -/
theorem run_fault_only_unknown_tool (env : Env) (u : String) :
    ((∀ t ∈ planTools u, env.hasTool t = true) →
      ∃ j, (execRun env u).result = .answer j) ∧
    (∀ t, (execRun env u).result = .unknownTool t →
      env.hasTool t = false ∧ t ∈ planTools u) := by
  constructor
  · intro h
    have hab : (runLoop env u (buildPlan u)).aborted = none := by
      apply runLoop_no_abort env u (buildPlan u) ⟨[], none, [], [], none⟩ rfl
      intro q hq
      exact h q.tool (List.mem_map_of_mem _ hq)
    exact ⟨finalValue u (runLoop env u (buildPlan u)).payload,
      mkTrace_result_none u _ hab⟩
  · intro t ht
    have hab : (runLoop env u (buildPlan u)).aborted = some t :=
      mkTrace_result_unknown u _ t ht
    rcases runLoop_abort_cases env u (buildPlan u) _ t hab with h4 | ⟨hmem, hft⟩
    · simp at h4
    · exact ⟨hft, hmem⟩

/-- Witness for C7 on a fully registered environment. -/
theorem run_fault_only_unknown_tool_w :
    ∃ j, (execRun envGoodSynth "hello?").result = .answer j :=
  (run_fault_only_unknown_tool envGoodSynth "hello?").1 (fun _ _ => rfl)

/-! ## C10 — the icon handling is frame-preserving -/

theorem frameEq_refl (a : Jv) : frameEq a a := ⟨rfl, rfl, rfl⟩

/-- C10: from the first persistence to the return of `run`, the
post-synthesis icon handling mutates only `visual_assets.icons`: the
`question`, `explanation` and `visual_brief` fields of the first persisted
payload agree with those of every persisted payload, of the in-memory
payload, and of the returned payload. -/
theorem post_synthesis_frame (env : Env) (u : String) (p1 : Jv)
    (h : (execRun env u).persists.head? = some p1) :
    (∀ p2 ∈ (execRun env u).persists, frameEq p1 p2) ∧
    (∀ fp, (execRun env u).payload = some fp → frameEq p1 fp) ∧
    (∀ j, (execRun env u).result = .answer j → frameEq p1 j) := by
  obtain ⟨pre, fin, hplan, hfin, hpre⟩ := buildPlan_split u
  set st0 : LoopState := List.foldl (stepExec env u) ⟨[], none, [], [], none⟩ pre
    with hst0
  have hloop : runLoop env u (buildPlan u) = stepExec env u st0 fin := by
    unfold runLoop
    rw [hplan, List.foldl_append]
    rfl
  have hframe0 := runPre_frame env u pre ⟨[], none, [], [], none⟩ hpre
  have hP0 : st0.persists = [] := hframe0.1
  have hPay0 : st0.payload = none := hframe0.2.1
  have hEP : (execRun env u).persists = (stepExec env u st0 fin).persists := by
    show (runLoop env u (buildPlan u)).persists = _
    rw [hloop]
  have hEPay : (execRun env u).payload = (stepExec env u st0 fin).payload := by
    show (runLoop env u (buildPlan u)).payload = _
    rw [hloop]
  have hERes : (execRun env u).result = (mkTrace u (stepExec env u st0 fin)).result := by
    show (mkTrace u (runLoop env u (buildPlan u))).result = _
    rw [hloop]
  rcases habs : st0.aborted with _ | t
  · by_cases hT : env.hasTool fin.tool = false
    · exfalso
      have hstep : (stepExec env u st0 fin).persists = st0.persists := by
        unfold stepExec
        rw [if_neg (by rw [habs]; simp), if_pos hT]
      rw [hEP, hstep, hP0] at h
      simp at h
    · have hT2 : env.hasTool "final_answer" = true := by
        rw [← hfin]
        simpa using hT
      rw [stepExec_final env u st0 fin hfin habs hT2] at hEP hEPay
      simp only [hP0, List.nil_append] at hEP
      simp only [] at hEPay
      have hres : (execRun env u).result =
          .answer (finalValue u (synthBranch env u st0.snippets st0.payload).payload) := by
        rw [hERes, stepExec_final env u st0 fin hfin habs hT2]
        exact mkTrace_result_none u _ rfl
      rcases synthBranch_main env u st0.snippets st0.payload with
        hS | ⟨fp2, hkey, hicons, hrest⟩
      · exfalso
        rw [hS] at hEP
        rw [hEP] at h
        simp at h
      · rcases hrest with ⟨hp, hpay⟩ | ⟨fp3, icons, hset, hp, hpay⟩
        · rw [hp] at hEP
          rw [hpay] at hEPay hres
          have hp1 : fp2 = p1 := by
            rw [hEP] at h
            simpa using h
          subst hp1
          have hval : finalValue u (some fp2) = fp2 := by
            simp [finalValue, hasKeyB_truthy fp2 "visual_brief" hkey]
          refine ⟨?_, ?_, ?_⟩
          · intro p2 hp2
            rw [hEP] at hp2
            simp at hp2
            subst hp2
            exact frameEq_refl _
          · intro fp hfp
            rw [hEPay] at hfp
            have : fp2 = fp := by simpa using hfp
            subst this
            exact frameEq_refl _
          · intro j hj
            rw [hres, hval] at hj
            have : fp2 = j := by
              cases hj
              rfl
            subst this
            exact frameEq_refl _
        · rw [hp] at hEP
          rw [hpay] at hEPay hres
          have hs := setIcons_ok fp2 fp3 icons hset
          have hfr23 : frameEq fp2 fp3 :=
            ⟨(hs.2 "question" (by decide)).symm,
             (hs.2 "explanation" (by decide)).symm,
             (hs.2 "visual_brief" (by decide)).symm⟩
          have hkey3 : hasKeyB fp3 "visual_brief" = true := by
            unfold hasKeyB at hkey ⊢
            rw [hs.2 "visual_brief" (by decide)]
            exact hkey
          have hp1 : fp2 = p1 := by
            rw [hEP] at h
            simpa using h
          subst hp1
          have hval : finalValue u (some fp3) = fp3 := by
            simp [finalValue, hasKeyB_truthy fp3 "visual_brief" hkey3]
          refine ⟨?_, ?_, ?_⟩
          · intro p2 hp2
            rw [hEP] at hp2
            simp at hp2
            rcases hp2 with rfl | rfl
            · exact frameEq_refl _
            · exact hfr23
          · intro fp hfp
            rw [hEPay] at hfp
            have : fp3 = fp := by simpa using hfp
            subst this
            exact hfr23
          · intro j hj
            rw [hres, hval] at hj
            have : fp3 = j := by
              cases hj
              rfl
            subst this
            exact hfr23
  · exfalso
    rw [hEP, stepExec_of_aborted env u st0 fin (by rw [habs]; rfl), hP0] at h
    simp at h

/-- Witness for C10 on a run whose first (and only) persisted payload is
`fp2W`. -/
theorem post_synthesis_frame_w :
    (∀ p2 ∈ (execRun envGoodSynth "hello?").persists, frameEq fp2W p2) ∧
    (∀ fp, (execRun envGoodSynth "hello?").payload = some fp → frameEq fp2W fp) ∧
    (∀ j, (execRun envGoodSynth "hello?").result = .answer j → frameEq fp2W j) :=
  post_synthesis_frame envGoodSynth "hello?" fp2W rfl

/-! ## C3 — per-step failure isolation -/

/-- The Synthesis Payload shape promised by the collaborator contract: an
object whose `explanation.content` is a non-empty string. -/
def goodSynthPayload (j : Jv) : Bool :=
  match lookupJ j "explanation" with
  | some (.obj efs) =>
    match lookupF efs "content" with
    | some (.str s) => !s.isEmpty
    | _ => false
  | _ => false

/-- One synthesis output honours the contract: valid JSON parses to a good
payload; anything else is at least non-empty text. -/
def synthOutputOk (env : Env) (r : String) : Prop :=
  match env.jsonLoads r with
  | .ok j => goodSynthPayload j = true
  | .error _ => r ≠ ""

/-- The synthesis collaborator honours its interface contract. -/
def synthContract (env : Env) : Prop :=
  ∀ q c r, env.finalAnswer q c = .ok r → synthOutputOk env r

theorem goodSynthPayload_shape (j : Jv) (h : goodSynthPayload j = true) :
    ∃ efs s, lookupJ j "explanation" = some (.obj efs) ∧
      lookupF efs "content" = some (.str s) ∧ s.isEmpty = false := by
  unfold goodSynthPayload at h
  rcases hl : lookupJ j "explanation" with _ | v <;> rw [hl] at h
  · simp at h
  · rcases v with _ | b | n | s | xs | efs <;> simp at h
    rcases hc : lookupF efs "content" with _ | c <;> rw [hc] at h
    · simp at h
    · rcases c with _ | b | n | s | xs | cfs <;> simp at h
      exact ⟨efs, s, rfl, hc, by simpa using h⟩

theorem goodSynthPayload_truthy (j : Jv) (h : goodSynthPayload j = true) :
    j.truthy = true := by
  obtain ⟨efs, s, hl, hc, hs⟩ := goodSynthPayload_shape j h
  exact hasKeyB_truthy j "explanation" (by simp [hasKeyB, hl])

theorem goodSynthPayload_content (j : Jv) (h : goodSynthPayload j = true) :
    explContentOf j ≠ "" := by
  obtain ⟨efs, s, hl, hc, hs⟩ := goodSynthPayload_shape j h
  rw [explContentOf_lookupJ, hl]
  show (match lookupF efs "content" with
        | some (.str s2) => s2
        | _ => "") ≠ ""
  rw [hc]
  show s ≠ ""
  intro heq
  subst heq
  exact absurd hs (by decide)

theorem goodSynthPayload_wellFormed (j : Jv) (h : goodSynthPayload j = true) :
    wellFormedPayload j = true := by
  obtain ⟨efs, s, hl, hc, hs⟩ := goodSynthPayload_shape j h
  rcases j with _ | b | n | s2 | xs | fs <;> simp [lookupJ] at hl
  simp only [wellFormedPayload]
  rw [hl]
  show explShapeOk (.obj efs) = true
  unfold explShapeOk
  split
  · rfl
  · show (match lookupF efs "content" with
          | none => true
          | some c => !c.truthy || jvIsStr c) = true
    rw [hc]
    simp [jvIsStr]

theorem goodSynthPayload_localFallback (u r : String) (h : r ≠ "") :
    goodSynthPayload (localFallback u r) = true := by
  unfold goodSynthPayload localFallback lookupJ
  simp [lookupF]
  rcases hr : r.isEmpty with _ | _
  · rfl
  · exact absurd ((String.isEmpty_iff r).mp hr) h

theorem goodSynthPayload_congr (p q : Jv)
    (h : lookupJ q "explanation" = lookupJ p "explanation") :
    goodSynthPayload q = goodSynthPayload p := by
  unfold goodSynthPayload
  rw [h]

theorem explContentOf_congr (p q : Jv)
    (h : lookupJ q "explanation" = lookupJ p "explanation") :
    explContentOf q = explContentOf p := by
  rw [explContentOf_lookupJ, explContentOf_lookupJ, h]

theorem snippetsOf_mem (env : Env) (p : StepPlan) (e : String)
    (he : stepSnippet env p = .error e) :
    ∀ steps, p ∈ steps → errSnippet p.tool e ∈ snippetsOf env steps := by
  intro steps
  induction steps with
  | nil => intro hp; simp at hp
  | cons q rest ih =>
    intro hp
    rcases List.mem_cons.mp hp with rfl | hmem
    · unfold snippetsOf stepSnippetList
      rw [he]
      exact List.mem_append_left _ (List.mem_singleton.mpr rfl)
    · exact List.mem_append_right _ (ih hmem)

/-- Under the collaborator contract, the synthesis branch either caught a
synthesis-call failure (leaving no payload), or left a truthy payload with
a non-empty explanation. -/
theorem synthBranch_good (env : Env) (u : String) (snips : List String)
    (hc : synthContract env) :
    ((synthBranch env u snips none).payload = none ∧
     (synthBranch env u snips none).err.isSome = true) ∨
    (∃ fp, (synthBranch env u snips none).payload = some fp ∧
      fp.truthy = true ∧ explContentOf fp ≠ "") := by
  unfold synthBranch
  cases hfa : env.finalAnswer u (contextBlob snips) with
  | error e => exact Or.inl ⟨rfl, rfl⟩
  | ok r =>
    have hok := hc u (contextBlob snips) r hfa
    have hg : goodSynthPayload (parsePayload env u r) = true := by
      unfold synthOutputOk at hok
      unfold parsePayload
      cases hjl : env.jsonLoads r with
      | ok j =>
        rw [hjl] at hok
        exact hok
      | error e2 =>
        rw [hjl] at hok
        exact goodSynthPayload_localFallback u r hok
    cases hsd : pySetdefault (parsePayload env u r) "visual_brief" (.arr []) with
    | error e2 =>
      simp only [hsd]
      exact Or.inr ⟨_, rfl, goodSynthPayload_truthy _ hg, goodSynthPayload_content _ hg⟩
    | ok fp1 =>
      simp only [hsd]
      have h1 := pySetdefault_ok _ _ _ _ hsd
      have hg1 : goodSynthPayload fp1 = true := by
        rw [goodSynthPayload_congr _ fp1 (h1.2 "explanation" (by decide))]
        exact hg
      cases hva : setdefaultVAIcons fp1 with
      | error e2 =>
        simp only [hva]
        exact Or.inr ⟨_, rfl, goodSynthPayload_truthy _ hg1, goodSynthPayload_content _ hg1⟩
      | ok fp2 =>
        simp only [hva]
        have h2 := setdefaultVAIcons_ok _ _ hva
        have hg2 : goodSynthPayload fp2 = true := by
          rw [goodSynthPayload_congr _ fp2 (h2.2 "explanation" (by decide))]
          exact hg1
        rw [wantsIconsFromFinal_eq fp2 (goodSynthPayload_wellFormed fp2 hg2)]
        cases hcond : (wantsIconsFromUser u || (vbNonEmptyList fp2 || explHasCue fp2)) &&
            env.hasTool "icon_generation" with
        | false =>
          simp only [hcond]
          exact Or.inr ⟨fp2, rfl, goodSynthPayload_truthy _ hg2, goodSynthPayload_content _ hg2⟩
        | true =>
          simp only [hcond]
          cases hib : iconSubBranch env u fp2 with
          | error e2 =>
            simp only [hib]
            exact Or.inr ⟨fp2, rfl, goodSynthPayload_truthy _ hg2, goodSynthPayload_content _ hg2⟩
          | ok fp3 =>
            simp only [hib]
            obtain ⟨icons, hset⟩ := iconSubBranch_isSetIcons env u fp2 fp3 hib
            have hs := setIcons_ok _ _ _ hset
            have hg3 : goodSynthPayload fp3 = true := by
              rw [goodSynthPayload_congr fp2 fp3 (hs.2 "explanation" (by decide))]
              exact hg2
            exact Or.inr ⟨fp3, rfl, goodSynthPayload_truthy _ hg3, goodSynthPayload_content _ hg3⟩

/-- C3: a failing non-synthesis step is converted into a labelled error
snippet that is part of the context handed to the synthesis step, the run
still reaches synthesis and returns a payload with a non-empty
explanation (under the collaborator contract), and the fixed fallback
payload is returned exactly when no payload was constructed. -/
theorem step_failure_isolation (env : Env) (u : String)
    (htools : ∀ t ∈ planTools u, env.hasTool t = true)
    (hc : synthContract env)
    (p : StepPlan) (hp : p ∈ buildPlan u) (hnf : p.tool ≠ "final_answer")
    (e : String) (he : stepSnippet env p = .error e) :
    (∃ sn ∈ (execRun env u).faCalls, errSnippet p.tool e ∈ sn) ∧
    (∃ j, (execRun env u).result = .answer j ∧ explContentOf j ≠ "") ∧
    ((execRun env u).payload = none →
      (execRun env u).result = .answer (fallbackPayload u)) ∧
    (∀ fp, (execRun env u).payload = some fp →
      (execRun env u).result = .answer fp) := by
  obtain ⟨pre, fin, hplan, hfin, hpre⟩ := buildPlan_split u
  have hppre : p ∈ pre := by
    rw [hplan] at hp
    rcases List.mem_append.mp hp with h | h
    · exact h
    · exfalso
      rcases List.mem_singleton.mp h with rfl
      exact hnf hfin
  have htool_pre : ∀ q ∈ pre, env.hasTool q.tool = true := by
    intro q hq
    apply htools
    unfold planTools
    rw [hplan]
    exact List.mem_map_of_mem _ (List.mem_append_left _ hq)
  have htool_fin : env.hasTool "final_answer" = true := by
    rw [← hfin]
    apply htools
    unfold planTools
    rw [hplan]
    exact List.mem_map_of_mem _ (List.mem_append_right _ (List.mem_singleton.mpr rfl))
  have hloop : runLoop env u (buildPlan u) =
      stepExec env u ⟨snippetsOf env pre, none, [], [], none⟩ fin := by
    unfold runLoop
    rw [hplan, List.foldl_append, runLoop_pre env u pre _ rfl htool_pre hpre]
    simp only [List.foldl_cons, List.foldl_nil, List.nil_append]
  rw [stepExec_final env u ⟨snippetsOf env pre, none, [], [], none⟩ fin hfin rfl
    htool_fin] at hloop
  have hfa2 : (execRun env u).faCalls = [snippetsOf env pre] := by
    show (runLoop env u (buildPlan u)).faCalls = _
    rw [hloop]
    rfl
  have hpay : (execRun env u).payload =
      (synthBranch env u (snippetsOf env pre) none).payload := by
    show (runLoop env u (buildPlan u)).payload = _
    rw [hloop]
  have hres : (execRun env u).result =
      .answer (finalValue u (synthBranch env u (snippetsOf env pre) none).payload) := by
    show (mkTrace u (runLoop env u (buildPlan u))).result = _
    rw [hloop]
    exact mkTrace_result_none u _ rfl
  refine ⟨⟨snippetsOf env pre, ?_, snippetsOf_mem env p e he pre hppre⟩, ?_⟩
  · rw [hfa2]
    exact List.mem_singleton.mpr rfl
  rcases synthBranch_good env u (snippetsOf env pre) hc with
    ⟨hnone, _⟩ | ⟨fp, hsome, htr, hcont⟩
  · refine ⟨⟨fallbackPayload u, ?_, ?_⟩, ?_, ?_⟩
    · rw [hres, hnone]
      rfl
    · rw [show explContentOf (fallbackPayload u) = "No explanation produced." from rfl]
      decide
    · intro _
      rw [hres, hnone]
      rfl
    · intro fp hfp
      rw [hpay, hnone] at hfp
      exact absurd hfp (by simp)
  · have hval : finalValue u (some fp) = fp := by
      simp [finalValue, htr]
    refine ⟨⟨fp, ?_, hcont⟩, ?_, ?_⟩
    · rw [hres, hsome, hval]
    · intro hno
      rw [hpay, hsome] at hno
      exact absurd hno (by simp)
    · intro fp2 hfp2
      rw [hpay, hsome] at hfp2
      have heq : fp = fp2 := by simpa using hfp2
      subst heq
      rw [hres, hsome, hval]

/-- `envGoodSynth` with the literature client failing with a transport
error. -/
def envArxivDown : Env :=
  { envGoodSynth with arxiv := fun _ _ _ => .error "transport error" }

/-- The literature step of the plan built for `"hello?"`. -/
def arxStepW : StepPlan :=
  ⟨0, "arxiv_search", arxivReason,
   some (.obj [("query", .str "hello?"), ("max_results", .num 5),
               ("debug", .bool false)])⟩

/-- Witness for C3 on a run whose literature step raises a transport
error. -/
theorem step_failure_isolation_w :
    (∃ sn ∈ (execRun envArxivDown "hello?").faCalls,
      errSnippet "arxiv_search" "transport error" ∈ sn) ∧
    (∃ j, (execRun envArxivDown "hello?").result = .answer j ∧
      explContentOf j ≠ "") := by
  have h := step_failure_isolation envArxivDown "hello?" (fun _ _ => rfl)
    (by
      intro q c r hr
      have hr2 : "SYN" = r := by
        simpa [envArxivDown, envGoodSynth] using hr
      subst hr2
      show synthOutputOk envArxivDown "SYN"
      have hg : goodSynthPayload goodSynthJv = true := by decide
      exact hg)
    arxStepW
    (by
      have hbp : buildPlan "hello?" =
          [arxStepW, ⟨1, "final_answer", finalReason, some (.obj [])⟩] := rfl
      rw [hbp]
      exact List.mem_cons_self _ _)
    (by decide) "transport error" rfl
  exact ⟨h.1, h.2.1⟩

/-! ## C8 — round-trip of a two-item visual brief -/

theorem stringMk_toList (s : String) : String.mk s.toList = s := rfl

/-- One `visual_brief` item: `{concept, caption}`. -/
def briefItem (c : String) (cap : Jv) : Jv :=
  .obj [("concept", .str c), ("caption", cap)]

/-- A synthesis payload with a two-item visual brief and arbitrary prior
icons content. -/
def twoBriefPayload (qs ec c1 c2 : String) (cap1 cap2 pre : Jv) : Jv :=
  .obj [("question", .str qs),
        ("explanation", .obj [("content", .str ec)]),
        ("visual_brief", .arr [briefItem c1 cap1, briefItem c2 cap2]),
        ("visual_assets", .obj [("icons", pre)])]

/-- The concepts argument the orchestrator sends for that payload. -/
def twoBriefConcepts (c1 c2 : String) (cap1 cap2 : Jv) : Jv :=
  .obj [("visual_brief", .arr [briefItem c1 cap1, briefItem c2 cap2])]

/-- C8: for a payload whose visual brief has exactly two (well-formed)
items, the visual decision is true, and when the visualizer — modelled by
`iconToolForward` — succeeds on both concepts, the merge replaces
`visual_assets.icons` with exactly two `{concept, path}` entries whose
concepts are the two brief concepts and whose paths are the generated
filenames. -/
theorem icon_roundtrip_two_concepts
    (env : Env) (u : String) (gen : Nat → String → Bool)
    (qs ec c1 c2 : String) (cap1 cap2 pre : Jv) (sTok : String) (toolOut : Jv)
    (hc1e : c1.isEmpty = false) (hc2e : c2.isEmpty = false)
    (hc1s : pyStrip c1.toList = c1.toList) (hc2s : pyStrip c2.toList = c2.toList)
    (hece : ec.isEmpty = false)
    (hgen1 : gen 1 c1 = true) (hgen2 : gen 2 c2 = true)
    (htool : iconToolForward gen (twoBriefConcepts c1 c2 cap1 cap2) ec = some toolOut)
    (hgenc : env.iconGen (twoBriefConcepts c1 c2 cap1 cap2) (.str ec) = .ok sTok)
    (hload : env.jsonLoads sTok = .ok toolOut) :
    wantsIconsFromFinal (twoBriefPayload qs ec c1 c2 cap1 cap2 pre) = .ok true ∧
    iconSubBranch env u (twoBriefPayload qs ec c1 c2 cap1 cap2 pre) =
      .ok (.obj [("question", .str qs),
                 ("explanation", .obj [("content", .str ec)]),
                 ("visual_brief", .arr [briefItem c1 cap1, briefItem c2 cap2]),
                 ("visual_assets", .obj [("icons", .arr
                   [.obj [("concept", .str c1), ("path", .str (iconFilename c1 1))],
                    .obj [("concept", .str c2), ("path", .str (iconFilename c2 2))]])])]) := by
  have hcoerce : coerceConceptsStructured (twoBriefConcepts c1 c2 cap1 cap2) =
      some [c1, c2] := by
    simp [coerceConceptsStructured, twoBriefConcepts, lookupF, briefConcepts,
      briefConceptItem, briefItem, Jv.truthy, hc1e, hc2e]
    constructor
    · rw [show pyStrip c1.data = c1.data from hc1s]
    · rw [show pyStrip c2.data = c2.data from hc2s]
  have htool2 : toolOut =
      .obj [("generated_icons", .arr
              [.obj [("concept", .str c1), ("filename", .str (iconFilename c1 1)),
                     ("model", .str fluxModel),
                     ("prompt", .str (iconPrompt c1 defaultIconStyle ec))],
               .obj [("concept", .str c2), ("filename", .str (iconFilename c2 2)),
                     ("model", .str fluxModel),
                     ("prompt", .str (iconPrompt c2 defaultIconStyle ec))]]),
            ("icon_paths", .arr [.str (iconFilename c1 1), .str (iconFilename c2 2)]),
            ("total_generated", .num 2),
            ("model_used", .str fluxModel)] := by
    have h2 := htool
    unfold iconToolForward at h2
    rw [hcoerce] at h2
    simp [genIconsFrom, genPathsFrom, hgen1, hgen2] at h2
    exact h2.symm
  constructor
  · simp [wantsIconsFromFinal, twoBriefPayload, pyGetAttr, lookupF, Jv.truthy]
  · have hgenc2 : env.iconGen
        (Jv.obj [("visual_brief", Jv.arr
          [Jv.obj [("concept", Jv.str c1), ("caption", cap1)],
           Jv.obj [("concept", Jv.str c2), ("caption", cap2)]])])
        (Jv.str ec) = .ok sTok := hgenc
    simp [iconSubBranch, conceptsArgOf, parseIconsPayload, twoBriefPayload,
      twoBriefConcepts, briefItem, pyGetAttr, lookupF, Jv.truthy, hece, hgenc2,
      hload, htool2, mapIconsList, mkIconEntry, setIcons, setF]

/-- All-success generation behaviour for the witness. -/
def c8Gen : Nat → String → Bool := fun _ _ => true

/-- The modelled visualizer output for the witness brief. -/
def c8ToolOut : Jv :=
  (iconToolForward c8Gen (twoBriefConcepts "vector" "arrow" .null .null) "See.").getD .null

/-- An environment whose visualizer behaves as the modelled tool. -/
def envIconTool : Env :=
  { envGoodSynth with
    iconGen := fun _ _ => .ok "GI",
    jsonLoads := fun s => if s = "GI" then .ok c8ToolOut else .error "invalid" }

/-- Witness for C8 at the two concrete concepts `vector` and `arrow`. -/
theorem icon_roundtrip_two_concepts_w :
    wantsIconsFromFinal
      (twoBriefPayload "q" "See." "vector" "arrow" .null .null (.str "old")) = .ok true ∧
    iconSubBranch envIconTool "u"
      (twoBriefPayload "q" "See." "vector" "arrow" .null .null (.str "old")) =
      .ok (.obj [("question", .str "q"),
                 ("explanation", .obj [("content", .str "See.")]),
                 ("visual_brief", .arr [briefItem "vector" .null, briefItem "arrow" .null]),
                 ("visual_assets", .obj [("icons", .arr
                   [.obj [("concept", .str "vector"),
                          ("path", .str (iconFilename "vector" 1))],
                    .obj [("concept", .str "arrow"),
                          ("path", .str (iconFilename "arrow" 2))]])])]) :=
  icon_roundtrip_two_concepts envIconTool "u" c8Gen "q" "See." "vector" "arrow"
    .null .null (.str "old") "GI" c8ToolOut rfl rfl rfl rfl rfl rfl rfl rfl rfl rfl

/-! ## C9 — persistence overwrites fully but not atomically (corrected) -/

/-- Counterexample to C9 as stated: the persistence is a truncate-in-place
followed by a write, so after the truncation event a read of the target
observes the empty file — neither the old content `"A"` nor the new
content `"B"`; a torn state is observable and no temp-then-rename step
exists in the event sequence. -/
theorem save_not_atomic_cex :
    ¬ (∀ n : Nat, readAfter "A" "B" n = some "A" ∨ readAfter "A" "B" n = some "B") := by
  intro h
  rcases h 1 with h1 | h1
  · exact absurd h1 (by decide)
  · exact absurd h1 (by decide)

/-- C9 (amended): every persistence writes the full serialized content to
the single fixed well-known location and, once its events complete, the
new content has fully replaced the old; the replacement, however, is not
atomic (see the counterexample). -/
theorem save_full_overwrite (old new : String) :
    applyOps (initFs old) (savePayloadOps new) persistPath = some new := by
  simp [applyOps, savePayloadOps, applyOp, initFs, persistPath]

end Viso
